import Mathlib

/-!
Verification development for the SMTP MCP server (TypeScript sources:
`src/emailService.ts`, `src/requestHandler.ts`, `src/config.ts`).

The embedding is shallow: the JSON-file document store is represented by the
in-memory lists the TypeScript code round-trips through, asynchronous I/O by
explicit state passing, and the nodemailer delivery collaborator by an
oracle function `deliver : MailOptions → Except String String` (`.error` models
a thrown exception, `.ok` a delivery id).  All definitions are computable and
structurally recursive so that concrete instances evaluate by `decide`/`rfl`.
-/

/-! ## Data model (config.ts interfaces) -/

/-- `auth` sub-object of `SmtpServerConfig` (config.ts). -/
structure SmtpAuth where
  user : String
  pass : String
deriving DecidableEq, Repr

/-- `SmtpServerConfig` (config.ts). -/
structure SmtpServerConfig where
  id : String
  name : String
  host : String
  port : Nat
  secure : Bool
  auth : SmtpAuth
  isDefault : Bool
deriving DecidableEq, Repr

/-- `RateLimitConfig` (config.ts). -/
structure RateLimitConfig where
  enabled : Bool
  messagesPerMinute : Nat
deriving DecidableEq, Repr

/-- `SmtpConfig` (config.ts): the whole config document. -/
structure SmtpConfig where
  smtpServers : List SmtpServerConfig
  rateLimit : RateLimitConfig
deriving DecidableEq, Repr

/-- `EmailTemplate` (config.ts). -/
structure EmailTemplate where
  id : String
  name : String
  subject : String
  body : String
  isDefault : Bool
deriving DecidableEq, Repr

/-- `EmailLogEntry` (config.ts). -/
structure EmailLogEntry where
  timestamp : String
  smtpConfig : String
  templateId : Option String
  recipient : String
  subject : String
  success : Bool
  message : Option String
deriving DecidableEq, Repr

/-- `EmailRecipient` (emailService.ts); the `from` field of `EmailData` has the
same shape, so the one structure serves both. -/
structure EmailRecipient where
  email : String
  name : Option String
deriving DecidableEq, Repr

/-- `EmailData` (emailService.ts).  The handler `handleSendEmail` converts a
single `to` object to an array before calling `sendEmail`, so `to` is a list.
`templateData` values are modelled as strings (the code only ever turns them
into strings).  `from` is a Lean keyword, hence `fromAddr`. -/
structure EmailData where
  «to» : List EmailRecipient
  subject : String
  body : String
  fromAddr : Option EmailRecipient
  cc : Option (List EmailRecipient)
  bcc : Option (List EmailRecipient)
  templateId : Option String
  templateData : Option (List (String × String))
deriving DecidableEq, Repr

/-- `BulkEmailData` (emailService.ts). -/
structure BulkEmailData where
  recipients : List EmailRecipient
  subject : String
  body : String
  fromAddr : Option EmailRecipient
  cc : Option (List EmailRecipient)
  bcc : Option (List EmailRecipient)
  templateId : Option String
  templateData : Option (List (String × String))
  batchSize : Option Nat
  delayBetweenBatches : Option Nat
deriving DecidableEq, Repr

/-- JavaScript `x || d` on an optional string: `undefined` and the empty
string are falsy. -/
def truthyOr (s : Option String) (d : String) : String :=
  match s with
  | some v => if v = ("" : String) then d else v
  | none => d

/-! ## Built-in defaults (config.ts constants, body strings elided to the
parts the claims exercise; `\x7b` and `\x7d` are `{` and `}`). -/

/-- First entry of `DEFAULT_SMTP_CONFIG.smtpServers` (config.ts), also the
last-resort fallback of `getDefaultSmtpConfig`. -/
def DEFAULT_SMTP_SERVER : SmtpServerConfig :=
  { id := ("aws-ses" : String), name := ("AWS SES" : String)
  , host := ("email-smtp.us-east-1.amazonaws.com" : String), port := 587
  , secure := false
  , auth := { user := ("AKIAXXXXXXXXXXX" : String), pass := ("XXXXXXXXXXXXXXXX" : String) }
  , isDefault := true }

/-- `DEFAULT_SMTP_CONFIG` (config.ts). -/
def DEFAULT_SMTP_CONFIG : SmtpConfig :=
  { smtpServers :=
      [ DEFAULT_SMTP_SERVER
      , { id := ("gmail" : String), name := ("Gmail SMTP" : String)
        , host := ("smtp.gmail.com" : String), port := 587
        , secure := false
        , auth := { user := ("eugproductions@gmail.com" : String), pass := ("rovt fswq crlv bhzk" : String) }
        , isDefault := false } ]
  , rateLimit := { enabled := true, messagesPerMinute := 30 } }

/-- `DEFAULT_TEMPLATE` (config.ts). -/
def DEFAULT_TEMPLATE : EmailTemplate :=
  { id := ("default" : String)
  , name := ("Default Template" : String)
  , subject := ("Default Subject" : String)
  , body := ("Hello \x7b\x7bname\x7d\x7d,\n\nThis is a default email template.\n\nBest regards,\nThe Team" : String)
  , isDefault := true }

/-! ## Template renderer (emailService.ts `processTemplate`)

The source applies `template.replace(/\x7b\x7b([^\x7d]+)\x7d\x7d/g, ...)`:
find `{{`, capture a maximal nonempty run of characters other than `}`,
require `}}` right after; replace the whole match by `data[key.trim()]` when
that is not `undefined`, otherwise keep the matched text; on a failed match
the scan advances one character. -/

/-- JavaScript `String.prototype.trim` on the captured key, modelled for the
ASCII whitespace the code can meet. -/
def isTrimmedSpace (c : Char) : Bool :=
  c = ' ' || c = '\t' || c = '\n' || c = '\r'

/-- Strip leading and trailing whitespace from a character list. -/
def trimChars (l : List Char) : List Char :=
  ((l.dropWhile isTrimmedSpace).reverse.dropWhile isTrimmedSpace).reverse

/-- Property lookup `data[key]`: `none` models `undefined`. -/
def lookupData (entries : List (String × String)) (key : String) : Option String :=
  (entries.find? (fun e => e.1 == key)).map (fun e => e.2)

/-- Try to read `<key>}}` at the start of `l` (the part after an opening
`{{`), per the regex `([^\x7d]+)\x7d\x7d`: returns the captured key run and
the remainder after the closing braces. -/
def matchPlaceholder (l : List Char) : Option (List Char × List Char) :=
  let run := l.takeWhile (fun c => c ≠ '}')
  let rest := l.dropWhile (fun c => c ≠ '}')
  if run.isEmpty then none
  else match rest with
    | c1 :: c2 :: tl => if c1 = '}' ∧ c2 = '}' then some (run, tl) else none
    | _ => none

/-- Replacement text for one regex match: the looked-up value when defined,
otherwise the original matched text `{{run}}`. -/
def placeholderSubst (entries : List (String × String)) (run : List Char) : List Char :=
  match lookupData entries (String.mk (trimChars run)) with
  | some v => v.data
  | none => '{' :: '{' :: (run ++ ['}', '}'])

/-- One linear pass of the global-replace, fuelled so the recursion is
structural (fuel `≥` input length always suffices: every step consumes at
least one character). -/
def processChars (entries : List (String × String)) : Nat → List Char → List Char
  | 0, l => l
  | _ + 1, [] => []
  | _ + 1, [c] => [c]
  | fuel + 1, c1 :: c2 :: rest =>
    if c1 = '{' ∧ c2 = '{' then
      match matchPlaceholder rest with
      | some (run, after) => placeholderSubst entries run ++ processChars entries fuel after
      | none => c1 :: processChars entries fuel (c2 :: rest)
    else c1 :: processChars entries fuel (c2 :: rest)

/-- `processTemplate` (emailService.ts); the `data` parameter defaults to the
empty object when absent. -/
def processTemplate (template : String) (data : Option (List (String × String))) : String :=
  String.mk (processChars (data.getD []) template.data.length template.data)

/-! ## Store read helpers (config.ts)

The document store is passed in as the lists the code reads fresh per
operation; read-failure fallbacks of `getSmtpConfigs`/`getEmailTemplates`
are not reachable in this state-passing view, but the fallbacks inside the
default-resolvers are modelled exactly. -/

/-- `getDefaultSmtpConfig` (config.ts): flagged default, else first entry,
else the first built-in default server. -/
def getDefaultSmtpConfig (configs : List SmtpServerConfig) : SmtpServerConfig :=
  ((configs.find? (fun c => c.isDefault)).orElse (fun _ => configs.head?)).getD
    DEFAULT_SMTP_SERVER

/-- `getDefaultEmailTemplate` (config.ts): flagged default, else first entry,
else `DEFAULT_TEMPLATE`. -/
def getDefaultEmailTemplate (templates : List EmailTemplate) : EmailTemplate :=
  ((templates.find? (fun t => t.isDefault)).orElse (fun _ => templates.head?)).getD
    DEFAULT_TEMPLATE

/-! ## Send pipeline (emailService.ts) -/

/-- `generateEmailContent` (emailService.ts): no template id → literal
subject/body; id `"default"` → the default-template resolver (which always
yields a template); other ids → lookup, falling back to the literal
subject/body when absent; a found template is rendered through
`processTemplate` with `templateData`. -/
def generateEmailContent (templates : List EmailTemplate)
    (templateId : Option String) (templateData : Option (List (String × String)))
    (subject body : String) : String × String :=
  match templateId with
  | none => (subject, body)
  | some tid =>
    let tOpt : Option EmailTemplate :=
      if tid = ("default" : String) then some (getDefaultEmailTemplate templates)
      else templates.find? (fun t => t.id == tid)
    match tOpt with
    | none => (subject, body)
    | some t => (processTemplate t.subject templateData, processTemplate t.body templateData)

/-- `formatRecipient` (emailService.ts); `if (recipient.name)` is JavaScript
truthiness, so an empty-string name formats as the bare address. -/
def formatRecipient (r : EmailRecipient) : String :=
  match r.name with
  | some n => if n = ("" : String) then r.email else ("\"" : String) ++ n ++ ("\" <" : String) ++ r.email ++ (">" : String)
  | none => r.email

/-- `formatRecipients` (emailService.ts), on the list form. -/
def formatRecipients (rs : List EmailRecipient) : List String :=
  rs.map formatRecipient

/-- The envelope handed to `transport.sendMail`. -/
structure MailOptions where
  fromAddr : String
  «to» : List String
  subject : String
  html : String
  cc : Option (List String)
  bcc : Option (List String)
deriving DecidableEq, Repr

/-- Outcome record `{ success, message }` of `sendEmail`. -/
structure SendOutcome where
  success : Bool
  message : Option String
deriving DecidableEq, Repr

/-- The config resolution done by `createTransport` (emailService.ts): an
explicit id that resolves to nothing throws. -/
def createTransportCheck (configs : List SmtpServerConfig)
    (smtpConfigId : Option String) : Except String SmtpServerConfig :=
  match smtpConfigId with
  | some cid =>
    match configs.find? (fun c => c.id == cid) with
    | none => Except.error (("SMTP configuration with ID " : String) ++ cid ++ (" not found" : String))
    | some c => Except.ok c
  | none => Except.ok (getDefaultSmtpConfig configs)

/-- The second config lookup inside `sendEmail`. -/
def resolveSmtpConfig (configs : List SmtpServerConfig)
    (smtpConfigId : Option String) : Option SmtpServerConfig :=
  match smtpConfigId with
  | some cid => configs.find? (fun c => c.id == cid)
  | none => some (getDefaultSmtpConfig configs)

/-- A success log entry (`sendEmail` success path). -/
def successLog (now configId : String) (templateId : Option String)
    (r : EmailRecipient) (subject messageId : String) : EmailLogEntry :=
  { timestamp := now, smtpConfig := configId, templateId := templateId
  , recipient := r.email, subject := subject, success := true
  , message := some (("Message sent: " : String) ++ messageId) }

/-- A failure log entry (`sendEmail` catch path): note the raw caller
subject and the `smtpConfigId || 'unknown'` sentinel. -/
def failureLog (now : String) (smtpConfigId : Option String)
    (templateId : Option String) (r : EmailRecipient) (rawSubject errMsg : String) :
    EmailLogEntry :=
  { timestamp := now, smtpConfig := truthyOr smtpConfigId ("unknown" : String)
  , templateId := templateId, recipient := r.email, subject := rawSubject
  , success := false, message := some errMsg }

/-- The `mailOptions` object composed inside `sendEmail`: explicit `from`
formatted like a recipient, else the resolved config's auth user; the body
is sent as HTML. -/
def buildMailOptions (data : EmailData) (smtpConfig : SmtpServerConfig)
    (subject body : String) : MailOptions :=
  { fromAddr := match data.fromAddr with
      | some f => formatRecipient f
      | none => smtpConfig.auth.user
  , «to» := formatRecipients data.to
  , subject := subject
  , html := body
  , cc := data.cc.map formatRecipients
  , bcc := data.bcc.map formatRecipients }

/-- The body of `sendEmail`'s `try` block; `Except.error` models a thrown
exception (config-not-found in `createTransport`, or the delivery
collaborator throwing). -/
def sendEmailTry (configs : List SmtpServerConfig) (templates : List EmailTemplate)
    (deliver : MailOptions → Except String String) (now : String)
    (data : EmailData) (smtpConfigId : Option String) :
    Except String (SendOutcome × List EmailLogEntry) :=
  match createTransportCheck configs smtpConfigId with
  | Except.error e => Except.error e
  | Except.ok _ =>
    match resolveSmtpConfig configs smtpConfigId with
    | none => Except.ok ({ success := false, message := some ("SMTP configuration not found" : String) }, [])
    | some smtpConfig =>
      let sb := generateEmailContent templates data.templateId data.templateData data.subject data.body
      match deliver (buildMailOptions data smtpConfig sb.1 sb.2) with
      | Except.error e => Except.error e
      | Except.ok messageId =>
        Except.ok
          ({ success := true, message := some (("Message sent: " : String) ++ messageId) }
          , data.to.map (fun r => successLog now smtpConfig.id data.templateId r sb.1 messageId))

/-- `sendEmail` (emailService.ts): the `try` body plus the `catch` that turns
any thrown error into a `{success:false}` result and one failure log entry
per `to` recipient. -/
def sendEmail (configs : List SmtpServerConfig) (templates : List EmailTemplate)
    (deliver : MailOptions → Except String String) (now : String)
    (data : EmailData) (smtpConfigId : Option String) :
    SendOutcome × List EmailLogEntry :=
  match sendEmailTry configs templates deliver now data smtpConfigId with
  | Except.ok r => r
  | Except.error e =>
    ({ success := false, message := some e }
    , data.to.map (fun r => failureLog now smtpConfigId data.templateId r data.subject e))

/-! ## Bulk pipeline (emailService.ts `sendBulkEmails`)

The batch loop `for (let i = 0; i < recipients.length; i += batchSize)`
with `recipients.slice(i, i + batchSize)` is rendered as the contiguous
chunking below (for `batchSize ≥ 1`; the source loop does not terminate on
`batchSize = 0`, which no claim exercises).  Within a batch the per-recipient
sends are issued by `Promise.all`; the model settles them in batch order,
which fixes an order for the appended log entries but leaves every count and
membership fact unchanged. -/

/-- Fuelled contiguous chunking; fuel `≥` list length suffices. -/
def chunksF (batchSize : Nat) : Nat → List EmailRecipient → List (List EmailRecipient)
  | 0, _ => []
  | _ + 1, [] => []
  | fuel + 1, r :: rest =>
    (r :: rest.take (batchSize - 1)) :: chunksF batchSize fuel (rest.drop (batchSize - 1))

/-- `recipients.slice(i, i + batchSize)` chunking of the whole list. -/
def chunks (batchSize : Nat) (l : List EmailRecipient) : List (List EmailRecipient) :=
  chunksF batchSize l.length l

/-- The per-recipient `EmailData` built inside the batch loop: the bulk
fields, a singleton `to`, and `templateData` spread together with the
overriding `email`/`name` keys (`recipient.name || ''`).  Object spread
overriding is modelled by prepending the two keys, since `lookupData`
returns the first binding of a key. -/
def mkRecipientEmailData (data : BulkEmailData) (r : EmailRecipient) : EmailData :=
  { «to» := [r]
  , subject := data.subject
  , body := data.body
  , fromAddr := data.fromAddr
  , cc := data.cc
  , bcc := data.bcc
  , templateId := data.templateId
  , templateData :=
      some ((("email" : String), r.email) :: (("name" : String), truthyOr r.name ("" : String))
            :: data.templateData.getD []) }

/-- One observable step of the bulk loop: a batch dispatched, or the
`setTimeout(delayBetweenBatches)` suspension between two batches. -/
inductive BulkEvent where
  | batchSend : List EmailRecipient → BulkEvent
  | delay : Nat → BulkEvent
deriving DecidableEq, Repr

/-- A `failures` record `{ email, error }`. -/
structure BulkFailure where
  email : String
  error : String
deriving DecidableEq, Repr

/-- Aggregate result of `sendBulkEmails`. -/
structure BulkResult where
  success : Bool
  totalSent : Nat
  totalFailed : Nat
  failures : Option (List BulkFailure)
  message : Option String
deriving DecidableEq, Repr

/-- Process the prepared batches in order: per batch, one `sendEmail` per
recipient, counting successes, recording `{email, error:
result.message || 'Unknown error'}` per failure, accumulating the log
entries each send appends, and a delay event exactly when further batches
remain (`i + batchSize < recipients.length`). -/
def runBatches (configs : List SmtpServerConfig) (templates : List EmailTemplate)
    (deliver : MailOptions → Except String String) (now : String)
    (data : BulkEmailData) (smtpConfigId : Option String) (delayMs : Nat) :
    List (List EmailRecipient) → Nat × List BulkFailure × List EmailLogEntry × List BulkEvent
  | [] => (0, [], [], [])
  | batch :: rest =>
    let sends := batch.map (fun r =>
      (r, sendEmail configs templates deliver now (mkRecipientEmailData data r) smtpConfigId))
    let sent := (sends.filter (fun p => p.2.1.success)).length
    let fails := sends.filterMap (fun p =>
      if p.2.1.success then none
      else some { email := p.1.email, error := truthyOr p.2.1.message ("Unknown error" : String) })
    let logs := (sends.map (fun p => p.2.2)).flatten
    let next := runBatches configs templates deliver now data smtpConfigId delayMs rest
    ( sent + next.1
    , fails ++ next.2.1
    , logs ++ next.2.2.1
    , BulkEvent.batchSend batch ::
        (if rest.isEmpty then next.2.2.2 else BulkEvent.delay delayMs :: next.2.2.2) )

/-- `sendBulkEmails` (emailService.ts); returns the aggregate result, the
log entries appended during the call, and the observable batch/delay trace. -/
def sendBulkEmails (configs : List SmtpServerConfig) (templates : List EmailTemplate)
    (deliver : MailOptions → Except String String) (now : String)
    (data : BulkEmailData) (smtpConfigId : Option String) :
    BulkResult × List EmailLogEntry × List BulkEvent :=
  let batchSize := data.batchSize.getD 10
  let delayMs := data.delayBetweenBatches.getD 1000
  match data.recipients with
  | [] =>
    ( { success := false, totalSent := 0, totalFailed := 0, failures := none
      , message := some ("No recipients provided" : String) }
    , [], [] )
  | r :: rest =>
    let run := runBatches configs templates deliver now data smtpConfigId delayMs
      (chunks batchSize (r :: rest))
    ( { success := decide (run.1 > 0)
      , totalSent := run.1
      , totalFailed := run.2.1.length
      , failures := if run.2.1.isEmpty then none else some run.2.1
      , message := some ((("Successfully sent " : String) ++ toString run.1
          ++ (" out of " : String) ++ toString (r :: rest).length ++ (" emails" : String))) }
    , run.2.2.1, run.2.2.2 )

/-- The delay pattern the spec describes: one delay between consecutive
batches, none after the last. -/
def specTrace (delayMs : Nat) : List (List EmailRecipient) → List BulkEvent
  | [] => []
  | [b] => [BulkEvent.batchSend b]
  | b :: b' :: rest => BulkEvent.batchSend b :: BulkEvent.delay delayMs :: specTrace delayMs (b' :: rest)

/-- Number of delay events in a trace. -/
def countDelays (events : List BulkEvent) : Nat :=
  events.countP (fun e => match e with | BulkEvent.delay _ => true | _ => false)

/-! ## Config/template CRUD (requestHandler.ts)

The handlers read the collection fresh, mutate it, and persist it; the
embedding maps a collection to a collection, plus the success flag of the
returned result.  `generateUUID()` is random, so the generated id is a
parameter of the add handlers.  For templates the store is one file per id
(`saveEmailTemplate` writes `<id>.json`, `deleteEmailTemplate` removes it),
so persisting a template replaces every list entry bearing its id — or
appends when the id is new. -/

/-- Parameters of `add-smtp-config`. -/
structure AddConfigParams where
  name : String
  host : String
  port : Nat
  secure : Option Bool
  user : String
  pass : String
  isDefault : Option Bool
deriving DecidableEq, Repr

/-- Parameters of `update-smtp-config`. -/
structure UpdateConfigParams where
  id : String
  name : Option String
  host : Option String
  port : Option Nat
  secure : Option Bool
  user : Option String
  pass : Option String
  isDefault : Option Bool
deriving DecidableEq, Repr

/-- Parameters of `add-email-template`. -/
structure AddTemplateParams where
  name : String
  subject : String
  body : String
  isDefault : Option Bool
deriving DecidableEq, Repr

/-- Parameters of `update-email-template`. -/
structure UpdateTemplateParams where
  id : String
  name : Option String
  subject : Option String
  body : Option String
  isDefault : Option Bool
deriving DecidableEq, Repr

/-- `handleAddSmtpConfig`: when the new entry is default, every existing
entry is demoted first; the new entry is pushed at the end. -/
def handleAddSmtpConfig (newId : String) (p : AddConfigParams)
    (configs : List SmtpServerConfig) : Bool × List SmtpServerConfig :=
  let newConfig : SmtpServerConfig :=
    { id := newId, name := p.name, host := p.host, port := p.port
    , secure := p.secure.getD false
    , auth := { user := p.user, pass := p.pass }
    , isDefault := p.isDefault.getD false }
  let configs' := if newConfig.isDefault
    then configs.map (fun c => { c with isDefault := false })
    else configs
  (true, configs' ++ [newConfig])

/-- Field-by-field update (`if (parameters.x !== undefined) updated.x = ...`).
The `isDefault` assignment is gated on `parameters.isDefault !== undefined`,
which is exactly `Option.getD`. -/
def applyConfigUpdate (p : UpdateConfigParams) (c : SmtpServerConfig) : SmtpServerConfig :=
  { c with
    name := p.name.getD c.name
  , host := p.host.getD c.host
  , port := p.port.getD c.port
  , secure := p.secure.getD c.secure
  , auth := { user := p.user.getD c.auth.user, pass := p.pass.getD c.auth.pass }
  , isDefault := p.isDefault.getD c.isDefault }

/-- `handleUpdateSmtpConfig`: when `isDefault:true` is given, the source
demotes every entry at an index other than `configIndex` and then assigns
`configs[configIndex] = updatedConfig`; demoting all entries and overwriting
index `configIndex` afterwards is the same list. -/
def handleUpdateSmtpConfig (p : UpdateConfigParams)
    (configs : List SmtpServerConfig) : Bool × List SmtpServerConfig :=
  match configs.findIdx? (fun c => c.id == p.id) with
  | none => (false, configs)
  | some configIndex =>
    match configs[configIndex]? with
    | none => (false, configs)  -- unreachable: findIdx? yields an in-range index
    | some old =>
      let updatedConfig := applyConfigUpdate p old
      let configs' := if p.isDefault = some true
        then configs.map (fun c => { c with isDefault := false })
        else configs
      (true, configs'.set configIndex updatedConfig)

/-- `handleDeleteSmtpConfig`: unknown id and sole-entry deletion are
rejected; deleting the default entry promotes the entry now at index 0. -/
def handleDeleteSmtpConfig (id : String)
    (configs : List SmtpServerConfig) : Bool × List SmtpServerConfig :=
  match configs.findIdx? (fun c => c.id == id) with
  | none => (false, configs)
  | some configIndex =>
    match configs[configIndex]? with
    | none => (false, configs)  -- unreachable: findIdx? yields an in-range index
    | some c =>
      if configs.length = 1 then (false, configs)
      else
        let isDef := c.isDefault
        let configs' := configs.eraseIdx configIndex
        let configs'' :=
          if isDef && !configs'.isEmpty then
            match configs' with
            | [] => configs'
            | c0 :: rest => { c0 with isDefault := true } :: rest
          else configs'
        (true, configs'')

/-- `saveEmailTemplate` against the templates directory: overwrite the
document named by the template's id, or create it (appended in enumeration
order). -/
def storeTemplate (t : EmailTemplate) (ts : List EmailTemplate) : List EmailTemplate :=
  if ts.any (fun u => u.id == t.id)
  then ts.map (fun u => if u.id == t.id then t else u)
  else ts ++ [t]

/-- `handleAddEmailTemplate`: each currently-default template is demoted and
persisted (fire-and-forget), then the new template is persisted. -/
def handleAddEmailTemplate (newId : String) (p : AddTemplateParams)
    (ts : List EmailTemplate) : Bool × List EmailTemplate :=
  let newTemplate : EmailTemplate :=
    { id := newId, name := p.name, subject := p.subject, body := p.body
    , isDefault := p.isDefault.getD false }
  let ts' := if newTemplate.isDefault
    then ts.map (fun t => if t.isDefault then { t with isDefault := false } else t)
    else ts
  (true, storeTemplate newTemplate ts')

/-- `handleUpdateEmailTemplate`: the `isDefault` change is applied only when
the parameter is given *and* differs from the current flag; only a change to
`true` demotes the other templates. -/
def handleUpdateEmailTemplate (p : UpdateTemplateParams)
    (ts : List EmailTemplate) : Bool × List EmailTemplate :=
  match ts.find? (fun t => t.id == p.id) with
  | none => (false, ts)
  | some t =>
    let changeDefault := match p.isDefault with
      | some b => decide (b ≠ t.isDefault)
      | none => false
    let updatedTemplate : EmailTemplate :=
      { t with
        name := p.name.getD t.name
      , subject := p.subject.getD t.subject
      , body := p.body.getD t.body
      , isDefault := if changeDefault then p.isDefault.getD t.isDefault else t.isDefault }
    let ts' := if changeDefault && updatedTemplate.isDefault
      then ts.map (fun u => if u.id != p.id && u.isDefault then { u with isDefault := false } else u)
      else ts
    (true, storeTemplate updatedTemplate ts')

/-- `handleDeleteEmailTemplate`: unknown id is rejected; deleting the
default template with others present promotes the first template with a
different id; deleting the sole template is allowed. -/
def handleDeleteEmailTemplate (id : String)
    (ts : List EmailTemplate) : Bool × List EmailTemplate :=
  match ts.find? (fun t => t.id == id) with
  | none => (false, ts)
  | some t =>
    let ts' :=
      if t.isDefault && decide (ts.length > 1) then
        match ts.find? (fun u => u.id != id) with
        | some u => storeTemplate { u with isDefault := true } ts
        | none => ts
      else ts
    (true, ts'.filter (fun u => u.id != id))

/-! ## Operation sequences for the single-default invariant -/

/-- One `smtp-config` mutation call. -/
inductive ConfigOp where
  | add (newId : String) (p : AddConfigParams)
  | update (p : UpdateConfigParams)
  | del (id : String)
deriving DecidableEq, Repr

/-- One `email-template` mutation call. -/
inductive TemplateOp where
  | add (newId : String) (p : AddTemplateParams)
  | update (p : UpdateTemplateParams)
  | del (id : String)
deriving DecidableEq, Repr

/-- Resulting collection of one config call. -/
def applyConfigOp (op : ConfigOp) (s : List SmtpServerConfig) : List SmtpServerConfig :=
  match op with
  | ConfigOp.add newId p => (handleAddSmtpConfig newId p s).2
  | ConfigOp.update p => (handleUpdateSmtpConfig p s).2
  | ConfigOp.del id => (handleDeleteSmtpConfig id s).2

/-- Resulting collection of a sequence of config calls. -/
def applyConfigOps (ops : List ConfigOp) (s : List SmtpServerConfig) : List SmtpServerConfig :=
  ops.foldl (fun s op => applyConfigOp op s) s

/-- Resulting collection of one template call. -/
def applyTemplateOp (op : TemplateOp) (s : List EmailTemplate) : List EmailTemplate :=
  match op with
  | TemplateOp.add newId p => (handleAddEmailTemplate newId p s).2
  | TemplateOp.update p => (handleUpdateEmailTemplate p s).2
  | TemplateOp.del id => (handleDeleteEmailTemplate id s).2

/-- Resulting collection of a sequence of template calls. -/
def applyTemplateOps (ops : List TemplateOp) (s : List EmailTemplate) : List EmailTemplate :=
  ops.foldl (fun s op => applyTemplateOp op s) s

/-- An `add` call is fresh when its generated id is not in the store
(`generateUUID` collisions have probability `≈ 0` and the one-file-per-id
store cannot hold two templates of one id); other calls always are. -/
def freshTemplateOpOk (op : TemplateOp) (s : List EmailTemplate) : Bool :=
  match op with
  | TemplateOp.add newId _ => !(s.any (fun t => t.id == newId))
  | _ => true

/-- A sequence of template calls is well formed when every `add` along the
way uses an id not currently in the store. -/
def wfTemplateOps : List TemplateOp → List EmailTemplate → Bool
  | [], _ => true
  | op :: rest, s =>
    freshTemplateOpOk op s && wfTemplateOps rest (applyTemplateOp op s)

/-- Number of entries flagged default. -/
def configDefaults (s : List SmtpServerConfig) : Nat :=
  s.countP (fun c => c.isDefault)

/-- Number of templates flagged default. -/
def templateDefaults (s : List EmailTemplate) : Nat :=
  s.countP (fun t => t.isDefault)

/-! ## Document store write path (config.ts `saveSmtpConfigs`)

The on-disk config document is `Option SmtpConfig` (`none` = the
`readJson` call throws); `writeOk` tells whether the `writeJson` call
succeeds.  The function returns the boolean the source returns together
with the document after the call. -/

/-- `saveSmtpConfigs` (config.ts): read the current document, replace only
its `smtpServers` field, write it back; any I/O error is caught and turned
into `false`. -/
def saveSmtpConfigs (disk : Option SmtpConfig) (writeOk : Bool)
    (configs : List SmtpServerConfig) : Bool × Option SmtpConfig :=
  match disk with
  | none => (false, none)
  | some doc =>
    if writeOk then (true, some { doc with smtpServers := configs })
    else (false, some doc)

/-! ## Renderer lemmas -/

/-- Running the scan with the canonical fuel (the input length). -/
def renderChars (entries : List (String × String)) (l : List Char) : List Char :=
  processChars entries l.length l

theorem processTemplate_eq_renderChars (template : String)
    (data : Option (List (String × String))) :
    processTemplate template data = String.mk (renderChars (data.getD []) template.data) := rfl

/-- A successful placeholder match consumes the key and both closing braces. -/
theorem matchPlaceholder_length {l run after : List Char}
    (h : matchPlaceholder l = some (run, after)) : after.length + 2 ≤ l.length := by
  have hsplit : List.takeWhile (fun c => decide (c ≠ '}')) l
      ++ List.dropWhile (fun c => decide (c ≠ '}')) l = l :=
    List.takeWhile_append_dropWhile _ _
  simp only [matchPlaceholder] at h
  split at h
  · exact absurd h (by simp)
  · split at h
    · next c1 c2 tl heq =>
      split at h
      · have hlen : (List.dropWhile (fun c => decide (c ≠ '}')) l).length ≤ l.length :=
          (List.dropWhile_sublist _).length_le
        rw [heq] at hlen
        simp only [Option.some.injEq, Prod.mk.injEq] at h
        obtain ⟨-, h2⟩ := h
        subst h2
        simp only [List.length_cons] at hlen
        omega
      · exact absurd h (by simp)
    · exact absurd h (by simp)

/-- Fuel irrelevance: any fuel at least the input length gives the canonical
result. -/
theorem processChars_fuel (e : List (String × String)) :
    ∀ (n : Nat) (l : List Char), l.length ≤ n →
      processChars e n l = renderChars e l := by
  intro n
  induction n using Nat.strong_induction_on with
  | _ n ih =>
    intro l hl
    cases n with
    | zero =>
      cases l with
      | nil => rfl
      | cons c t => simp at hl
    | succ n =>
      cases l with
      | nil => rfl
      | cons c1 t =>
        cases t with
        | nil => rfl
        | cons c2 rest =>
          have hr : (c2 :: rest).length ≤ n := by
            simp only [List.length_cons] at hl ⊢; omega
          show (if c1 = '{' ∧ c2 = '{' then _ else _) = renderChars e (c1 :: c2 :: rest)
          have hrhs : renderChars e (c1 :: c2 :: rest)
              = (if c1 = '{' ∧ c2 = '{' then
                  match matchPlaceholder rest with
                  | some (run, after) =>
                    placeholderSubst e run ++ processChars e (rest.length + 1) after
                  | none => c1 :: processChars e (rest.length + 1) (c2 :: rest)
                 else c1 :: processChars e (rest.length + 1) (c2 :: rest)) := rfl
          rw [hrhs]
          by_cases hbr : c1 = '{' ∧ c2 = '{'
          · rw [if_pos hbr, if_pos hbr]
            cases hmp : matchPlaceholder rest with
            | none =>
              have h1 : processChars e n (c2 :: rest) = renderChars e (c2 :: rest) :=
                ih n (Nat.lt_succ_self n) _ hr
              have h2 : processChars e (rest.length + 1) (c2 :: rest)
                  = renderChars e (c2 :: rest) := rfl
              simp only [hmp, h1, h2]
            | some pr =>
              obtain ⟨run, after⟩ := pr
              have hlen := matchPlaceholder_length hmp
              have hl2 : rest.length + 2 ≤ n + 1 := by
                simpa using hl
              have h1 : processChars e n after = renderChars e after :=
                ih n (Nat.lt_succ_self n) _ (by omega)
              have h2 : processChars e (rest.length + 1) after = renderChars e after :=
                ih (rest.length + 1) (by omega) _ (by omega)
              simp only [hmp, h1, h2]
          · rw [if_neg hbr, if_neg hbr]
            have h1 : processChars e n (c2 :: rest) = renderChars e (c2 :: rest) :=
              ih n (Nat.lt_succ_self n) _ hr
            have h2 : processChars e (rest.length + 1) (c2 :: rest)
                = renderChars e (c2 :: rest) := rfl
            rw [h1, h2]

/-- A character other than `{` passes through the scan untouched. -/
theorem renderChars_cons_noBrace (e : List (String × String)) (c : Char)
    (l : List Char) (hc : c ≠ '{') :
    renderChars e (c :: l) = c :: renderChars e l := by
  cases l with
  | nil => rfl
  | cons c2 rest =>
    show (if c = '{' ∧ c2 = '{' then _ else _) = _
    rw [if_neg (fun h => hc h.1)]
    rfl

/-- A brace-free prefix passes through the scan untouched. -/
theorem renderChars_append_safe (e : List (String × String)) (p l : List Char)
    (hp : ∀ c ∈ p, c ≠ '{') :
    renderChars e (p ++ l) = p ++ renderChars e l := by
  induction p with
  | nil => rfl
  | cons c p ih =>
    rw [List.cons_append, renderChars_cons_noBrace e c (p ++ l) (hp c (by simp)),
      ih (fun c hc => hp c (by simp [hc]))]
    rfl

/-- Scanning `key}}…` splits at the first closing brace. -/
theorem takeWhile_key (k t : List Char) (hk2 : ∀ c ∈ k, c ≠ '}') :
    List.takeWhile (fun c => decide (c ≠ '}')) (k ++ '}' :: '}' :: t) = k ∧
    List.dropWhile (fun c => decide (c ≠ '}')) (k ++ '}' :: '}' :: t) = '}' :: '}' :: t := by
  induction k with
  | nil => constructor <;> simp [List.takeWhile_cons, List.dropWhile_cons]
  | cons c k ih =>
    have hc : c ≠ '}' := hk2 c (by simp)
    obtain ⟨h1, h2⟩ := ih (fun c hc' => hk2 c (by simp [hc']))
    have hcd : decide (c ≠ '}') = true := by simp [hc]
    constructor
    · simp only [List.cons_append, List.takeWhile_cons, hcd, eq_self_iff_true, if_true, h1]
    · simp only [List.cons_append, List.dropWhile_cons, hcd, eq_self_iff_true, if_true, h2]

/-- The regex matches exactly a nonempty brace-free key followed by `}}`. -/
theorem matchPlaceholder_exact (k t : List Char) (hk : k ≠ [])
    (hk2 : ∀ c ∈ k, c ≠ '}') :
    matchPlaceholder (k ++ '}' :: '}' :: t) = some (k, t) := by
  obtain ⟨h1, h2⟩ := takeWhile_key k t hk2
  simp only [matchPlaceholder, h1, h2]
  simp [hk]

/-- The scan rewrites one well-formed placeholder and continues after it. -/
theorem renderChars_placeholder (e : List (String × String)) (k t : List Char)
    (hk : k ≠ []) (hk2 : ∀ c ∈ k, c ≠ '}') :
    renderChars e ('{' :: '{' :: (k ++ '}' :: '}' :: t)) =
      placeholderSubst e k ++ renderChars e t := by
  have step : renderChars e ('{' :: '{' :: (k ++ '}' :: '}' :: t)) =
      (match matchPlaceholder (k ++ '}' :: '}' :: t) with
        | some (run, after) =>
          placeholderSubst e run ++ processChars e ((k ++ '}' :: '}' :: t).length + 1) after
        | none =>
          '{' :: processChars e ((k ++ '}' :: '}' :: t).length + 1)
            ('{' :: (k ++ '}' :: '}' :: t))) := rfl
  rw [step, matchPlaceholder_exact k t hk hk2]
  show placeholderSubst e k ++ processChars e ((k ++ '}' :: '}' :: t).length + 1) t
      = placeholderSubst e k ++ renderChars e t
  rw [processChars_fuel e _ t (by simp; omega)]

/-- The scan of the empty input. -/
theorem renderChars_nil (e : List (String × String)) : renderChars e [] = [] := rfl

/-! ## Claim C5: placeholder substitution -/

/-- One lexical piece of a template: literal text, or one `\x7b\x7bkey\x7d\x7d`
placeholder occurrence. -/
inductive TemplateTok where
  | lit (s : List Char)
  | ph (key : List Char)
deriving DecidableEq, Repr

/-- The template text a token list denotes: literals verbatim, each
placeholder as `\x7b\x7bkey\x7d\x7d`. -/
def toksChars : List TemplateTok → List Char
  | [] => []
  | TemplateTok.lit s :: ts => s ++ toksChars ts
  | TemplateTok.ph k :: ts => '{' :: '{' :: (k ++ '}' :: '}' :: toksChars ts)

/-- A well-formed decomposition: literal segments carry no opening brace (so
the decomposition marks every placeholder occurrence), and each key is
nonempty and free of closing braces, as the regex `([^\x7d]+)` captures. -/
def toksWF : List TemplateTok → Bool
  | [] => true
  | TemplateTok.lit s :: ts => s.all (fun c => c ≠ '{') && toksWF ts
  | TemplateTok.ph k :: ts =>
    (!k.isEmpty && k.all (fun c => c ≠ '}')) && toksWF ts

/-- Modelled from the CLAIM's words, for comparison with the code: replace
each `\x7b\x7bkey\x7d\x7d` occurrence whose trimmed key maps to a value by
that value, keep every other occurrence verbatim, and keep all literal text
untouched. -/
def toksSubstSpec (entries : List (String × String)) : List TemplateTok → List Char
  | [] => []
  | TemplateTok.lit s :: ts => s ++ toksSubstSpec entries ts
  | TemplateTok.ph k :: ts =>
    (match lookupData entries (String.mk (trimChars k)) with
     | some v => v.data
     | none => '{' :: '{' :: (k ++ ['}', '}'])) ++ toksSubstSpec entries ts

/-- The scan realizes the per-occurrence substitution over any well-formed
token list. -/
theorem renderChars_toks (entries : List (String × String)) :
    ∀ toks : List TemplateTok, toksWF toks = true →
      renderChars entries (toksChars toks) = toksSubstSpec entries toks := by
  intro toks
  induction toks with
  | nil => intro _; rfl
  | cons tok ts ih =>
    intro hwf
    cases tok with
    | lit s =>
      simp only [toksWF, Bool.and_eq_true] at hwf
      have hp : ∀ c ∈ s, c ≠ '{' := by
        intro c hc
        have := List.all_eq_true.mp hwf.1 c hc
        simpa using this
      show renderChars entries (s ++ toksChars ts) = s ++ toksSubstSpec entries ts
      rw [renderChars_append_safe entries s _ hp, ih hwf.2]
    | ph k =>
      simp only [toksWF, Bool.and_eq_true] at hwf
      have hk : k ≠ [] := by
        have := hwf.1.1
        simpa [List.isEmpty_iff] using this
      have hk2 : ∀ c ∈ k, c ≠ '}' := by
        intro c hc
        have := List.all_eq_true.mp hwf.1.2 c hc
        simpa using this
      show renderChars entries ('{' :: '{' :: (k ++ '}' :: '}' :: toksChars ts))
          = toksSubstSpec entries (TemplateTok.ph k :: ts)
      rw [renderChars_placeholder entries k (toksChars ts) hk hk2, ih hwf.2]
      rfl

/-- C5: over every template decomposed into literal text and
`\x7b\x7bkey\x7d\x7d` occurrences (literals brace-free, keys nonempty and
`\x7d`-free, any number of occurrences in any positions) and every data map,
`processTemplate` replaces exactly the occurrences whose trimmed key maps to
a value — each by that value — and leaves every other occurrence verbatim in
place (not removed, not an error), with all literal text untouched. -/
theorem processTemplate_substitution (toks : List TemplateTok)
    (entries : List (String × String)) (hwf : toksWF toks = true) :
    processTemplate (String.mk (toksChars toks)) (some entries)
      = String.mk (toksSubstSpec entries toks) := by
  rw [processTemplate_eq_renderChars]
  exact congrArg String.mk (renderChars_toks entries toks hwf)

/-- The spec's example template as a token list. -/
def cxToksHello : List TemplateTok :=
  [TemplateTok.lit ("Hello " : String).data, TemplateTok.ph ("name" : String).data]

/-- A template with two placeholders, literal text after each, one key bound
and one unbound. -/
def cxToksTwo : List TemplateTok :=
  [ TemplateTok.lit ("a " : String).data, TemplateTok.ph ("x" : String).data
  , TemplateTok.lit (" b " : String).data, TemplateTok.ph ("y" : String).data
  , TemplateTok.lit (" c" : String).data ]

/-- Witness for C5: the spec's two examples, and a template with a bound and
an unbound placeholder followed by further text. -/
theorem processTemplate_substitution_witness :
    toksWF cxToksHello = true ∧ toksWF cxToksTwo = true ∧
    processTemplate ("Hello \x7b\x7bname\x7d\x7d" : String)
      (some [(("name" : String), ("Ana" : String))]) = ("Hello Ana" : String) ∧
    processTemplate ("Hello \x7b\x7bname\x7d\x7d" : String) (some [])
      = ("Hello \x7b\x7bname\x7d\x7d" : String) ∧
    processTemplate ("a \x7b\x7bx\x7d\x7d b \x7b\x7by\x7d\x7d c" : String)
      (some [(("x" : String), ("1" : String))])
      = ("a 1 b \x7b\x7by\x7d\x7d c" : String) := by
  refine ⟨by decide, by decide, ?_, ?_, ?_⟩
  · have h := processTemplate_substitution cxToksHello
      [(("name" : String), ("Ana" : String))] (by decide)
    have e1 : String.mk (toksChars cxToksHello) = ("Hello \x7b\x7bname\x7d\x7d" : String) := by
      decide
    have e2 : String.mk (toksSubstSpec [(("name" : String), ("Ana" : String))] cxToksHello)
        = ("Hello Ana" : String) := by decide
    rw [e1, e2] at h
    exact h
  · have h := processTemplate_substitution cxToksHello [] (by decide)
    have e1 : String.mk (toksChars cxToksHello) = ("Hello \x7b\x7bname\x7d\x7d" : String) := by
      decide
    have e2 : String.mk (toksSubstSpec [] cxToksHello)
        = ("Hello \x7b\x7bname\x7d\x7d" : String) := by decide
    rw [e1, e2] at h
    exact h
  · have h := processTemplate_substitution cxToksTwo
      [(("x" : String), ("1" : String))] (by decide)
    have e1 : String.mk (toksChars cxToksTwo)
        = ("a \x7b\x7bx\x7d\x7d b \x7b\x7by\x7d\x7d c" : String) := by decide
    have e2 : String.mk (toksSubstSpec [(("x" : String), ("1" : String))] cxToksTwo)
        = ("a 1 b \x7b\x7by\x7d\x7d c" : String) := by decide
    rw [e1, e2] at h
    exact h

/-! ## Claim C10: bulk sends inject the recipient name -/

/-- `recipient.name || ''` coincides with `Option.getD ""`. -/
theorem truthyOr_name (name : Option String) :
    truthyOr name ("" : String) = name.getD ("" : String) := by
  cases name with
  | none => rfl
  | some n =>
    by_cases h : n = ("" : String)
    · simp [truthyOr, h]
    · simp [truthyOr, h]

/-- C10: every per-recipient `sendEmail` call issued by `sendBulkEmails`
carries `templateData` in which key `name` is bound to the recipient's name
or, when the recipient has none, the empty string; hence a `{{name}}`
placeholder renders as the empty string for a nameless recipient instead of
being left verbatim. -/
theorem bulk_name_injection (data : BulkEmailData) (r : EmailRecipient) :
    lookupData ((mkRecipientEmailData data r).templateData.getD []) ("name" : String)
      = some (r.name.getD ("" : String)) ∧
    processTemplate ("Hello \x7b\x7bname\x7d\x7d" : String)
        (mkRecipientEmailData data r).templateData
      = ("Hello " : String) ++ (r.name.getD ("" : String)) ∧
    (r.name = none →
      processTemplate ("Hello \x7b\x7bname\x7d\x7d" : String)
          (mkRecipientEmailData data r).templateData
        = ("Hello " : String)) := by
  have hlook : lookupData ((mkRecipientEmailData data r).templateData.getD []) ("name" : String)
      = some (r.name.getD ("" : String)) := by
    simp [mkRecipientEmailData, lookupData, List.find?, truthyOr_name]
  have hdata : ("Hello \x7b\x7bname\x7d\x7d" : String).data
      = ("Hello " : String).data
        ++ ('{' :: '{' :: (("name" : String).data ++ '}' :: '}' :: [])) := by decide
  have hrender : processTemplate ("Hello \x7b\x7bname\x7d\x7d" : String)
      (mkRecipientEmailData data r).templateData
      = ("Hello " : String) ++ (r.name.getD ("" : String)) := by
    rw [processTemplate_eq_renderChars, hdata,
      renderChars_append_safe _ _ _ (by decide),
      renderChars_placeholder _ _ _ (by decide) (by decide)]
    have hsubst : placeholderSubst ((mkRecipientEmailData data r).templateData.getD [])
        ("name" : String).data = (r.name.getD ("" : String)).data := by
      have htrim : String.mk (trimChars ("name" : String).data) = ("name" : String) := by decide
      simp only [placeholderSubst, htrim, hlook]
    rw [hsubst]
    apply String.ext
    simp [String.data_append, renderChars_nil]
  refine ⟨hlook, hrender, fun hn => ?_⟩
  rw [hrender, hn]
  rfl

/-! ## Shape of `sendEmail` results -/

/-- Every run of `sendEmail` lands in one of two shapes: the catch path —
result `{success:false, message:e}` with one failure log entry per `to`
recipient carrying the raw caller subject — or the success path — result
`{success:true}` with one success log entry per `to` recipient carrying the
post-substitution subject.  In particular the early `SMTP configuration not
found` return inside the `try` block is unreachable: when an explicit id
fails to resolve, `createTransport` has already thrown. -/
theorem sendEmail_shape (configs : List SmtpServerConfig) (templates : List EmailTemplate)
    (deliver : MailOptions → Except String String) (now : String)
    (data : EmailData) (cid : Option String) :
    (∃ e, sendEmail configs templates deliver now data cid
        = ({ success := false, message := some e },
           data.to.map (fun r => failureLog now cid data.templateId r data.subject e)))
    ∨ (∃ smtpConfig messageId, resolveSmtpConfig configs cid = some smtpConfig ∧
        sendEmail configs templates deliver now data cid
        = ({ success := true, message := some (("Message sent: " : String) ++ messageId) },
           data.to.map (fun r => successLog now smtpConfig.id data.templateId r
             (generateEmailContent templates data.templateId data.templateData
               data.subject data.body).1 messageId))) := by
  cases cid with
  | none =>
    have h0 : sendEmailTry configs templates deliver now data none =
        (match deliver (buildMailOptions data (getDefaultSmtpConfig configs)
            (generateEmailContent templates data.templateId data.templateData
              data.subject data.body).1
            (generateEmailContent templates data.templateId data.templateData
              data.subject data.body).2) with
         | Except.error e => Except.error e
         | Except.ok messageId =>
           Except.ok
             ({ success := true, message := some (("Message sent: " : String) ++ messageId) }
             , data.to.map (fun r => successLog now (getDefaultSmtpConfig configs).id
                 data.templateId r
                 (generateEmailContent templates data.templateId data.templateData
                   data.subject data.body).1 messageId))) := rfl
    unfold sendEmail
    rw [h0]
    cases hd : deliver (buildMailOptions data (getDefaultSmtpConfig configs)
        (generateEmailContent templates data.templateId data.templateData
          data.subject data.body).1
        (generateEmailContent templates data.templateId data.templateData
          data.subject data.body).2) with
    | error e => exact Or.inl ⟨e, rfl⟩
    | ok messageId =>
      exact Or.inr ⟨getDefaultSmtpConfig configs, messageId, rfl, rfl⟩
  | some cidv =>
    cases hfind : configs.find? (fun c => c.id == cidv) with
    | none =>
      have h0 : sendEmailTry configs templates deliver now data (some cidv)
          = Except.error (("SMTP configuration with ID " : String) ++ cidv
              ++ (" not found" : String)) := by
        simp only [sendEmailTry, createTransportCheck, hfind]
      unfold sendEmail
      rw [h0]
      exact Or.inl ⟨_, rfl⟩
    | some c =>
      have hres : resolveSmtpConfig configs (some cidv) = some c := by
        simp only [resolveSmtpConfig, hfind]
      have h0 : sendEmailTry configs templates deliver now data (some cidv) =
          (match deliver (buildMailOptions data c
              (generateEmailContent templates data.templateId data.templateData
                data.subject data.body).1
              (generateEmailContent templates data.templateId data.templateData
                data.subject data.body).2) with
           | Except.error e => Except.error e
           | Except.ok messageId =>
             Except.ok
               ({ success := true, message := some (("Message sent: " : String) ++ messageId) }
               , data.to.map (fun r => successLog now c.id data.templateId r
                   (generateEmailContent templates data.templateId data.templateData
                     data.subject data.body).1 messageId))) := by
        simp only [sendEmailTry, createTransportCheck, resolveSmtpConfig, hfind]
      unfold sendEmail
      rw [h0]
      cases hd : deliver (buildMailOptions data c
          (generateEmailContent templates data.templateId data.templateData
            data.subject data.body).1
          (generateEmailContent templates data.templateId data.templateData
            data.subject data.body).2) with
      | error e => exact Or.inl ⟨e, rfl⟩
      | ok messageId => exact Or.inr ⟨c, messageId, hres, rfl⟩

/-! ## Bulk pipeline lemmas -/

/-- The `sendEmail` call the bulk loop issues for one recipient. -/
def bulkSendOne (configs : List SmtpServerConfig) (templates : List EmailTemplate)
    (deliver : MailOptions → Except String String) (now : String)
    (data : BulkEmailData) (smtpConfigId : Option String) (r : EmailRecipient) :
    SendOutcome × List EmailLogEntry :=
  sendEmail configs templates deliver now (mkRecipientEmailData data r) smtpConfigId

/-- Fuel irrelevance for the chunking. -/
theorem chunksF_fuel (B : Nat) :
    ∀ (n : Nat) (l : List EmailRecipient), l.length ≤ n →
      chunksF B n l = chunks B l := by
  intro n
  induction n using Nat.strong_induction_on with
  | _ n ih =>
    intro l hl
    cases n with
    | zero =>
      cases l with
      | nil => rfl
      | cons r rest => simp at hl
    | succ n =>
      cases l with
      | nil => rfl
      | cons r rest =>
        have hl' : rest.length ≤ n := by simpa using hl
        have hdrop : (rest.drop (B - 1)).length ≤ rest.length := by
          simp [List.length_drop]
        show (r :: rest.take (B - 1)) :: chunksF B n (rest.drop (B - 1))
            = chunks B (r :: rest)
        have hrhs : chunks B (r :: rest)
            = (r :: rest.take (B - 1)) :: chunksF B rest.length (rest.drop (B - 1)) := rfl
        rw [hrhs, ih n (Nat.lt_succ_self n) _ (le_trans hdrop hl')]
        congr 1
        exact (ih rest.length (by omega) _ hdrop).symm

/-- One step of the chunking. -/
theorem chunks_cons (B : Nat) (r : EmailRecipient) (rest : List EmailRecipient) :
    chunks B (r :: rest)
      = (r :: rest.take (B - 1)) :: chunks B (rest.drop (B - 1)) := by
  show (r :: rest.take (B - 1)) :: chunksF B rest.length (rest.drop (B - 1)) = _
  congr 1
  exact chunksF_fuel B rest.length _ (by simp [List.length_drop])

/-- The batches concatenate back to the recipient list. -/
theorem chunks_flatten (B : Nat) :
    ∀ (n : Nat) (l : List EmailRecipient), l.length ≤ n →
      (chunks B l).flatten = l := by
  intro n
  induction n with
  | zero =>
    intro l hl
    cases l with
    | nil => rfl
    | cons r rest => simp at hl
  | succ n ih =>
    intro l hl
    cases l with
    | nil => rfl
    | cons r rest =>
      rw [chunks_cons]
      have : (rest.drop (B - 1)).length ≤ n := by
        have := List.length_drop (B - 1) rest
        simp only [List.length_cons] at hl
        omega
      simp only [List.flatten_cons, ih _ this, List.cons_append]
      rw [List.take_append_drop]

/-- Number of batches is the ceiling `⌈N/B⌉`. -/
theorem chunks_count (B : Nat) (hB : 1 ≤ B) :
    ∀ (n : Nat) (l : List EmailRecipient), l.length ≤ n → l ≠ [] →
      (chunks B l).length = (l.length + B - 1) / B := by
  intro n
  induction n with
  | zero =>
    intro l hl hne
    cases l with
    | nil => exact absurd rfl hne
    | cons r rest => simp at hl
  | succ n ih =>
    intro l hl hne
    cases l with
    | nil => exact absurd rfl hne
    | cons r rest =>
      rw [chunks_cons]
      simp only [List.length_cons] at hl
      by_cases hrest : rest.length ≤ B - 1
      · have hdrop : rest.drop (B - 1) = [] := by
          rw [List.drop_eq_nil_iff]
          omega
        rw [hdrop]
        have hdiv : (rest.length + 1 + B - 1) / B = 1 :=
          Nat.div_eq_of_lt_le (by omega) (by omega)
        have hnil : chunks B ([] : List EmailRecipient) = [] := rfl
        simp only [hnil, List.length_cons, List.length_nil]
        omega
      · have hdropne : rest.drop (B - 1) ≠ [] := by
          rw [Ne, List.drop_eq_nil_iff]
          omega
        have hdlen : (rest.drop (B - 1)).length ≤ n := by
          have := List.length_drop (B - 1) rest
          omega
        simp only [List.length_cons, ih _ hdlen hdropne, List.length_drop]
        have e1 : rest.length - (B - 1) + B - 1 = rest.length := by omega
        have e2 : rest.length + 1 + B - 1 = rest.length + B := by omega
        rw [e1, e2, Nat.add_div_right _ (show 0 < B by omega)]

/-- Every batch is nonempty and no longer than the batch size. -/
theorem chunks_sizes (B : Nat) (hB : 1 ≤ B) :
    ∀ (n : Nat) (l : List EmailRecipient), l.length ≤ n →
      ∀ b ∈ chunks B l, b ≠ [] ∧ b.length ≤ B := by
  intro n
  induction n with
  | zero =>
    intro l hl b hb
    cases l with
    | nil => simp [chunks, chunksF] at hb
    | cons r rest => simp at hl
  | succ n ih =>
    intro l hl b hb
    cases l with
    | nil => simp [chunks, chunksF] at hb
    | cons r rest =>
      rw [chunks_cons] at hb
      simp only [List.mem_cons] at hb
      cases hb with
      | inl h =>
        subst h
        refine ⟨by simp, ?_⟩
        simp only [List.length_cons, List.length_take]
        omega
      | inr h =>
        have hdlen : (rest.drop (B - 1)).length ≤ n := by
          have := List.length_drop (B - 1) rest
          simp only [List.length_cons] at hl
          omega
        exact ih _ hdlen b h

/-- The event trace of the batch loop is batches separated by single
delays, with no delay after the last batch. -/
theorem runBatches_events (configs : List SmtpServerConfig) (templates : List EmailTemplate)
    (deliver : MailOptions → Except String String) (now : String)
    (data : BulkEmailData) (cid : Option String) (delayMs : Nat) :
    ∀ cs : List (List EmailRecipient),
      (runBatches configs templates deliver now data cid delayMs cs).2.2.2
        = specTrace delayMs cs := by
  intro cs
  induction cs with
  | nil => rfl
  | cons b rest ih =>
    cases rest with
    | nil => rfl
    | cons b2 rest2 =>
      show BulkEvent.batchSend b ::
          (if (b2 :: rest2).isEmpty then _ else BulkEvent.delay delayMs :: _) = _
      rw [if_neg (by simp)]
      show _ = BulkEvent.batchSend b :: BulkEvent.delay delayMs :: specTrace delayMs (b2 :: rest2)
      rw [← ih]

/-- The count of delay events in the spec trace. -/
theorem countDelays_specTrace (delayMs : Nat) :
    ∀ cs : List (List EmailRecipient), cs ≠ [] →
      countDelays (specTrace delayMs cs) = cs.length - 1 := by
  intro cs
  induction cs with
  | nil => intro h; exact absurd rfl h
  | cons b rest ih =>
    intro _
    cases rest with
    | nil => rfl
    | cons b2 rest2 =>
      show countDelays (BulkEvent.batchSend b :: BulkEvent.delay delayMs
          :: specTrace delayMs (b2 :: rest2)) = _
      have h2 := ih (by simp)
      simp only [countDelays] at h2 ⊢
      simp [List.countP_cons] at h2 ⊢
      omega

/-- The accumulators of the batch loop over the flattened batches: sent
count, failures and appended log entries are each a fold over the
individual recipients in order. -/
theorem runBatches_accum (configs : List SmtpServerConfig) (templates : List EmailTemplate)
    (deliver : MailOptions → Except String String) (now : String)
    (data : BulkEmailData) (cid : Option String) (delayMs : Nat) :
    ∀ cs : List (List EmailRecipient),
      (runBatches configs templates deliver now data cid delayMs cs).1
        = (cs.flatten.filter (fun r =>
            (bulkSendOne configs templates deliver now data cid r).1.success)).length ∧
      (runBatches configs templates deliver now data cid delayMs cs).2.1
        = cs.flatten.filterMap (fun r =>
            if (bulkSendOne configs templates deliver now data cid r).1.success then none
            else some { email := r.email
                      , error := truthyOr (bulkSendOne configs templates deliver now data cid r).1.message
                          ("Unknown error" : String) }) ∧
      (runBatches configs templates deliver now data cid delayMs cs).2.2.1
        = (cs.flatten.map (fun r =>
            (bulkSendOne configs templates deliver now data cid r).2)).flatten := by
  intro cs
  induction cs with
  | nil => exact ⟨rfl, rfl, rfl⟩
  | cons b rest ih =>
    obtain ⟨ih1, ih2, ih3⟩ := ih
    refine ⟨?_, ?_, ?_⟩
    · show ((b.map (fun r => (r, bulkSendOne configs templates deliver now data cid r))).filter
          (fun p => p.2.1.success)).length
          + (runBatches configs templates deliver now data cid delayMs rest).1 = _
      rw [ih1]
      simp only [List.flatten_cons, List.filter_append, List.length_append,
        List.filter_map, List.length_map]
      rfl
    · show ((b.map (fun r => (r, bulkSendOne configs templates deliver now data cid r))).filterMap _)
          ++ (runBatches configs templates deliver now data cid delayMs rest).2.1 = _
      rw [ih2]
      simp only [List.flatten_cons, List.filterMap_append, List.filterMap_map]
      rfl
    · show (((b.map (fun r => (r, bulkSendOne configs templates deliver now data cid r))).map
          (fun p => p.2.2)).flatten)
          ++ (runBatches configs templates deliver now data cid delayMs rest).2.2.1 = _
      rw [ih3]
      simp only [List.flatten_cons, List.map_append, List.flatten_append, List.map_map]
      rfl

/-- Both paths of `sendEmail` log exactly one entry per `to` recipient. -/
theorem sendEmail_logs_length (configs : List SmtpServerConfig)
    (templates : List EmailTemplate) (deliver : MailOptions → Except String String)
    (now : String) (data : EmailData) (cid : Option String) :
    (sendEmail configs templates deliver now data cid).2.length = data.to.length := by
  rcases sendEmail_shape configs templates deliver now data cid with
    ⟨e, hshape⟩ | ⟨c, mid, hres, hshape⟩ <;> rw [hshape] <;> simp

/-- The per-recipient log entries of a bulk run: one entry per recipient. -/
theorem bulk_logs_length (configs : List SmtpServerConfig)
    (templates : List EmailTemplate) (deliver : MailOptions → Except String String)
    (now : String) (data : BulkEmailData) (cid : Option String) :
    ∀ rs : List EmailRecipient,
      ((rs.map (fun r => (bulkSendOne configs templates deliver now data cid r).2)).flatten).length
        = rs.length := by
  intro rs
  induction rs with
  | nil => rfl
  | cons r rest ih =>
    simp only [List.map_cons, List.flatten_cons, List.length_append, ih]
    have h1 : (bulkSendOne configs templates deliver now data cid r).2.length = 1 := by
      show (sendEmail configs templates deliver now (mkRecipientEmailData data r) cid).2.length = 1
      rw [sendEmail_logs_length]
      rfl
    simp only [List.length_cons, h1]
    omega

/-! ## Concrete fixtures used by witnesses and counterexamples -/

/-- A nameless recipient. -/
def cxRecipient : EmailRecipient := { email := ("a@b.c" : String), name := none }

/-- A stored template whose subject differs from the caller's subject. -/
def cxTemplate : EmailTemplate :=
  { id := ("t1" : String), name := ("T" : String), subject := ("S" : String)
  , body := ("B" : String), isDefault := false }

/-- A send request that uses template `t1` with literal subject `X`. -/
def cxData : EmailData :=
  { «to» := [cxRecipient], subject := ("X" : String), body := ("Y" : String)
  , fromAddr := none, cc := none, bcc := none
  , templateId := some ("t1" : String), templateData := none }

/-- A delivery collaborator that always throws. -/
def failDeliver : MailOptions → Except String String :=
  fun _ => Except.error ("boom" : String)

/-- A delivery collaborator that always succeeds. -/
def okDeliver : MailOptions → Except String String :=
  fun _ => Except.ok ("m1" : String)

/-- A delivery collaborator that throws exactly for the recipient `bad@x`. -/
def mixedDeliver : MailOptions → Except String String :=
  fun mo => if mo.to = [("bad@x" : String)]
    then Except.error ("boom" : String) else Except.ok ("m1" : String)

/-- A two-recipient bulk request of which one delivery fails. -/
def cxBulk2 : BulkEmailData :=
  { recipients := [ { email := ("good@x" : String), name := none }
                  , { email := ("bad@x" : String), name := none } ]
  , subject := ("s" : String), body := ("b" : String)
  , fromAddr := none, cc := none, bcc := none
  , templateId := none, templateData := none
  , batchSize := none, delayBetweenBatches := none }

/-- The spec's 25-recipient, batch-size-10 example. -/
def cxBulk25 : BulkEmailData :=
  { recipients := List.replicate 25 { email := ("r@x" : String), name := none }
  , subject := ("s" : String), body := ("b" : String)
  , fromAddr := none, cc := none, bcc := none
  , templateId := none, templateData := none
  , batchSize := some 10, delayBetweenBatches := none }

/-! ## Claim C2: one log entry per recipient; logged subject -/

/-- C2 counterexample: a send through template `t1` (subject `S`) that fails
at delivery logs the raw caller subject `X`, not the post-substitution
subject `S` — refuting the claim that both paths log the final subject. -/
theorem send_failure_log_subject_counterexample :
    ((sendEmail [] [cxTemplate] failDeliver ("ts" : String) cxData none).2.map
        (fun e => e.subject)) = [("X" : String)] ∧
    (generateEmailContent [cxTemplate] cxData.templateId cxData.templateData
        cxData.subject cxData.body).1 = ("S" : String) ∧
    (sendEmail [] [cxTemplate] failDeliver ("ts" : String) cxData none).1.success = false ∧
    ("X" : String) ≠ ("S" : String) := by decide

/-- C2 (amended): each `sendEmail` run appends exactly one log entry per
`to` recipient on both paths, and a bulk send of N recipients appends N
entries; each success-path entry's subject is the final post-substitution
subject, while each failure-path entry's subject is the raw caller-supplied
subject (the original claim's "post-substitution on both paths" fails on
the failure path). -/
theorem send_logs_one_per_recipient (configs : List SmtpServerConfig)
    (templates : List EmailTemplate) (deliver : MailOptions → Except String String)
    (now : String) (data : EmailData) (cid : Option String) :
    ((sendEmail configs templates deliver now data cid).2.map (fun e => e.recipient)
      = data.to.map (fun r => r.email)) ∧
    ((sendEmail configs templates deliver now data cid).1.success = true →
      ∀ e ∈ (sendEmail configs templates deliver now data cid).2,
        e.subject = (generateEmailContent templates data.templateId data.templateData
          data.subject data.body).1) ∧
    ((sendEmail configs templates deliver now data cid).1.success = false →
      ∀ e ∈ (sendEmail configs templates deliver now data cid).2,
        e.subject = data.subject) ∧
    (∀ bulkData : BulkEmailData,
      (sendBulkEmails configs templates deliver now bulkData cid).2.1.length
        = bulkData.recipients.length) := by
  refine ⟨?_, ?_, ?_, ?_⟩
  · rcases sendEmail_shape configs templates deliver now data cid with
      ⟨e, hshape⟩ | ⟨c, mid, hres, hshape⟩ <;> rw [hshape] <;>
      simp [failureLog, successLog, List.map_map, Function.comp]
  · intro hsucc e he
    rcases sendEmail_shape configs templates deliver now data cid with
      ⟨err, hshape⟩ | ⟨c, mid, hres, hshape⟩
    · rw [hshape] at hsucc
      simp at hsucc
    · rw [hshape] at he
      simp only [List.mem_map] at he
      obtain ⟨r, -, hr⟩ := he
      rw [← hr]
      rfl
  · intro hfail e he
    rcases sendEmail_shape configs templates deliver now data cid with
      ⟨err, hshape⟩ | ⟨c, mid, hres, hshape⟩
    · rw [hshape] at he
      simp only [List.mem_map] at he
      obtain ⟨r, -, hr⟩ := he
      rw [← hr]
      rfl
    · rw [hshape] at hfail
      simp at hfail
  · intro bulkData
    cases hrec : bulkData.recipients with
    | nil => simp [sendBulkEmails, hrec]
    | cons r rest =>
      have h3 := (runBatches_accum configs templates deliver now bulkData cid
        (bulkData.delayBetweenBatches.getD 1000)
        (chunks (bulkData.batchSize.getD 10) (r :: rest))).2.2
      have hflat := chunks_flatten (bulkData.batchSize.getD 10) (r :: rest).length
        (r :: rest) le_rfl
      simp only [sendBulkEmails, hrec]
      rw [h3, hflat, bulk_logs_length]

/-- Witness for C2 at a concrete failing send and a concrete bulk send. -/
theorem send_logs_one_per_recipient_witness :
    (sendEmail [] [cxTemplate] failDeliver ("ts" : String) cxData none).1.success = false ∧
    ((sendEmail [] [cxTemplate] failDeliver ("ts" : String) cxData none).2.map
        (fun e => e.recipient)) = [("a@b.c" : String)] ∧
    (sendBulkEmails [] [cxTemplate] failDeliver ("ts" : String) cxBulk2 none).2.1.length
      = cxBulk2.recipients.length := by
  refine ⟨by decide, ?_, ?_⟩
  · rw [(send_logs_one_per_recipient [] [cxTemplate] failDeliver ("ts" : String) cxData none).1]
    decide
  · exact (send_logs_one_per_recipient [] [cxTemplate] failDeliver ("ts" : String)
      cxData none).2.2.2 cxBulk2

/-! ## Claim C3: batching and inter-batch delays -/

/-- C3: for a nonempty recipient list and an explicit batch size `B ≥ 1`,
the bulk pipeline processes the recipients as `⌈N/B⌉` contiguous nonempty
batches of at most `B` recipients whose concatenation is the original list,
with exactly one delay of `delayBetweenBatches` between consecutive batches
(so `⌈N/B⌉ − 1` delays) and none after the last. -/
theorem bulk_batching_delays (configs : List SmtpServerConfig)
    (templates : List EmailTemplate) (deliver : MailOptions → Except String String)
    (now : String) (data : BulkEmailData) (cid : Option String) (B : Nat)
    (hB : data.batchSize = some B) (h1 : 1 ≤ B) (hne : data.recipients ≠ []) :
    (sendBulkEmails configs templates deliver now data cid).2.2
      = specTrace (data.delayBetweenBatches.getD 1000) (chunks B data.recipients) ∧
    (chunks B data.recipients).flatten = data.recipients ∧
    (chunks B data.recipients).length = (data.recipients.length + B - 1) / B ∧
    (∀ b ∈ chunks B data.recipients, b ≠ [] ∧ b.length ≤ B) ∧
    countDelays ((sendBulkEmails configs templates deliver now data cid).2.2)
      = (chunks B data.recipients).length - 1 := by
  cases hrec : data.recipients with
  | nil => exact absurd hrec hne
  | cons r rest =>
    have hev : (sendBulkEmails configs templates deliver now data cid).2.2
        = specTrace (data.delayBetweenBatches.getD 1000) (chunks B (r :: rest)) := by
      simp only [sendBulkEmails, hrec, hB, Option.getD_some]
      exact runBatches_events configs templates deliver now data cid
        (data.delayBetweenBatches.getD 1000) (chunks B (r :: rest))
    have hchne : chunks B (r :: rest) ≠ [] := by
      rw [chunks_cons]
      simp
    refine ⟨by rw [hev], ?_, ?_, ?_, ?_⟩
    · exact chunks_flatten B (r :: rest).length _ le_rfl
    · exact chunks_count B h1 (r :: rest).length _ le_rfl (by simp)
    · exact chunks_sizes B h1 (r :: rest).length _ le_rfl
    · rw [hev, countDelays_specTrace _ _ hchne]

/-- Witness for C3: 25 recipients with batch size 10 give batches of sizes
10, 10, 5 and two delays. -/
theorem bulk_batching_delays_witness :
    cxBulk25.batchSize = some 10 ∧ 1 ≤ 10 ∧ cxBulk25.recipients ≠ [] ∧
    (chunks 10 cxBulk25.recipients).map (fun b => b.length) = [10, 10, 5] ∧
    countDelays ((sendBulkEmails [] [] okDeliver ("ts" : String) cxBulk25 none).2.2)
      = (chunks 10 cxBulk25.recipients).length - 1 ∧
    (chunks 10 cxBulk25.recipients).length - 1 = 2 := by
  refine ⟨rfl, by omega, by decide, by decide, ?_, by decide⟩
  exact (bulk_batching_delays [] [] okDeliver ("ts" : String) cxBulk25 none 10
    rfl (by omega) (by decide)).2.2.2.2

/-! ## Claim C4: no exception escapes; failures are accounted -/

/-- `filterMap` by an if-none function is a filter-then-map. -/
theorem filterMap_if_eq_filter_map {α β : Type} (p : α → Bool) (g : α → β) :
    ∀ l : List α,
      l.filterMap (fun a => if p a then none else some (g a))
        = (l.filter (fun a => !p a)).map g := by
  intro l
  induction l with
  | nil => rfl
  | cons a l ih =>
    by_cases h : p a = true
    · simp [List.filterMap_cons, List.filter_cons, h, ih]
    · simp [List.filterMap_cons, List.filter_cons, h, ih]

/-- C4: `sendEmail` resolves every failure to a `{success:false, message}`
result (never a thrown exception — `Except.error` never escapes the catch
wrapper by construction), and in a bulk send every recipient whose
per-recipient send fails — in particular one whose delivery collaborator
throws — appears in the `failures` list. -/
theorem send_never_throws (configs : List SmtpServerConfig)
    (templates : List EmailTemplate) (deliver : MailOptions → Except String String)
    (now : String) (data : EmailData) (cid : Option String) :
    ((sendEmail configs templates deliver now data cid).1.success = false →
      (sendEmail configs templates deliver now data cid).1.message.isSome = true) ∧
    (∀ (bulkData : BulkEmailData) (r : EmailRecipient), r ∈ bulkData.recipients →
      (bulkSendOne configs templates deliver now bulkData cid r).1.success = false →
      r.email ∈ ((sendBulkEmails configs templates deliver now bulkData cid).1.failures.getD []).map
        (fun f => f.email)) := by
  constructor
  · intro _
    rcases sendEmail_shape configs templates deliver now data cid with
      ⟨e, hshape⟩ | ⟨c, mid, hres, hshape⟩ <;> rw [hshape] <;> rfl
  · intro bulkData r hr hfail
    cases hrec : bulkData.recipients with
    | nil =>
      rw [hrec] at hr
      simp at hr
    | cons r0 rest =>
      rw [hrec] at hr
      have h2 := (runBatches_accum configs templates deliver now bulkData cid
        (bulkData.delayBetweenBatches.getD 1000)
        (chunks (bulkData.batchSize.getD 10) (r0 :: rest))).2.1
      have hflat := chunks_flatten (bulkData.batchSize.getD 10) (r0 :: rest).length
        (r0 :: rest) le_rfl
      rw [hflat] at h2
      have hmem : BulkFailure.mk r.email
            (truthyOr (bulkSendOne configs templates deliver now bulkData cid r).1.message
              ("Unknown error" : String))
          ∈ (runBatches configs templates deliver now bulkData cid
              (bulkData.delayBetweenBatches.getD 1000)
              (chunks (bulkData.batchSize.getD 10) (r0 :: rest))).2.1 := by
        rw [h2]
        refine List.mem_filterMap.mpr ⟨r, hr, ?_⟩
        rw [if_neg (by rw [hfail]; simp)]
      have hne2 : (runBatches configs templates deliver now bulkData cid
          (bulkData.delayBetweenBatches.getD 1000)
          (chunks (bulkData.batchSize.getD 10) (r0 :: rest))).2.1 ≠ [] :=
        List.ne_nil_of_mem hmem
      have hfl : (sendBulkEmails configs templates deliver now bulkData cid).1.failures
          = some (runBatches configs templates deliver now bulkData cid
              (bulkData.delayBetweenBatches.getD 1000)
              (chunks (bulkData.batchSize.getD 10) (r0 :: rest))).2.1 := by
        simp only [sendBulkEmails, hrec]
        rw [if_neg (by simpa using hne2)]
      rw [hfl]
      simp only [Option.getD_some, List.mem_map]
      exact ⟨_, hmem, rfl⟩

/-- Witness for C4: the recipient whose delivery throws is accounted in
`failures`. -/
theorem send_never_throws_witness :
    (sendEmail [] [] failDeliver ("ts" : String) cxData none).1.success = false ∧
    (sendEmail [] [] failDeliver ("ts" : String) cxData none).1.message.isSome = true ∧
    ({ email := ("bad@x" : String), name := none } : EmailRecipient) ∈ cxBulk2.recipients ∧
    (bulkSendOne [] [] mixedDeliver ("ts" : String) cxBulk2 none
      { email := ("bad@x" : String), name := none }).1.success = false ∧
    ("bad@x" : String) ∈ ((sendBulkEmails [] [] mixedDeliver ("ts" : String) cxBulk2 none).1.failures.getD []).map
      (fun f => f.email) := by
  refine ⟨by decide, ?_, by decide, by decide, ?_⟩
  · exact (send_never_throws [] [] failDeliver ("ts" : String) cxData none).1 (by decide)
  · exact (send_never_throws [] [] mixedDeliver ("ts" : String) cxData none).2 cxBulk2
      { email := ("bad@x" : String), name := none } (by decide) (by decide)

/-! ## Claim C6: bulk aggregation -/

/-- C6: for a nonempty recipient list, `totalSent` counts the per-recipient
successes, `totalFailed` counts the failures, each failure is recorded as
`{email, error}`, and `success = (totalSent > 0)` — so a partially failed
bulk send still reports `success:true`. -/
theorem bulk_aggregation (configs : List SmtpServerConfig)
    (templates : List EmailTemplate) (deliver : MailOptions → Except String String)
    (now : String) (data : BulkEmailData) (cid : Option String)
    (hne : data.recipients ≠ []) :
    (sendBulkEmails configs templates deliver now data cid).1.totalSent
      = (data.recipients.filter (fun r =>
          (bulkSendOne configs templates deliver now data cid r).1.success)).length ∧
    (sendBulkEmails configs templates deliver now data cid).1.totalFailed
      = (data.recipients.filter (fun r =>
          !(bulkSendOne configs templates deliver now data cid r).1.success)).length ∧
    (sendBulkEmails configs templates deliver now data cid).1.failures.getD []
      = (data.recipients.filter (fun r =>
          !(bulkSendOne configs templates deliver now data cid r).1.success)).map
          (fun r => { email := r.email
                    , error := truthyOr (bulkSendOne configs templates deliver now data cid r).1.message
                        ("Unknown error" : String) }) ∧
    (sendBulkEmails configs templates deliver now data cid).1.success
      = decide (0 < (sendBulkEmails configs templates deliver now data cid).1.totalSent) := by
  cases hrec : data.recipients with
  | nil => exact absurd hrec hne
  | cons r0 rest =>
    obtain ⟨h1, h2, -⟩ := runBatches_accum configs templates deliver now data cid
      (data.delayBetweenBatches.getD 1000)
      (chunks (data.batchSize.getD 10) (r0 :: rest))
    have hflat := chunks_flatten (data.batchSize.getD 10) (r0 :: rest).length
      (r0 :: rest) le_rfl
    rw [hflat] at h1 h2
    rw [filterMap_if_eq_filter_map] at h2
    simp only [sendBulkEmails, hrec]
    refine ⟨?_, ?_, ?_, ?_⟩
    · exact h1
    · rw [h2, List.length_map]
    · by_cases hemp : (runBatches configs templates deliver now data cid
          (data.delayBetweenBatches.getD 1000)
          (chunks (data.batchSize.getD 10) (r0 :: rest))).2.1.isEmpty
      · rw [if_pos hemp]
        rw [List.isEmpty_iff] at hemp
        rw [hemp] at h2
        simp [← h2]
      · rw [if_neg hemp]
        simp only [Option.getD_some]
        exact h2
    · trivial

/-- Witness for C6: a two-recipient bulk send with one failing delivery
reports `totalSent = 1`, `totalFailed = 1` and `success = true`. -/
theorem bulk_aggregation_witness :
    cxBulk2.recipients ≠ [] ∧
    (sendBulkEmails [] [] mixedDeliver ("ts" : String) cxBulk2 none).1.success
      = decide (0 < (sendBulkEmails [] [] mixedDeliver ("ts" : String) cxBulk2 none).1.totalSent) ∧
    (sendBulkEmails [] [] mixedDeliver ("ts" : String) cxBulk2 none).1.totalSent = 1 ∧
    (sendBulkEmails [] [] mixedDeliver ("ts" : String) cxBulk2 none).1.totalFailed = 1 ∧
    (sendBulkEmails [] [] mixedDeliver ("ts" : String) cxBulk2 none).1.success = true := by
  refine ⟨by decide, ?_, by decide, by decide, by decide⟩
  exact (bulk_aggregation [] [] mixedDeliver ("ts" : String) cxBulk2 none (by decide)).2.2.2

/-! ## Claim C1: the single-default invariant -/

/-- Demoting every config clears all default flags. -/
theorem configDefaults_demoteAll (l : List SmtpServerConfig) :
    configDefaults (l.map (fun c => { c with isDefault := false })) = 0 := by
  simp [configDefaults, List.countP_map, Function.comp]

/-- Replacing the entry at a valid index trades its flag for the new one. -/
theorem configDefaults_set (u : SmtpServerConfig) :
    ∀ (l : List SmtpServerConfig) (i : Nat) (old : SmtpServerConfig), l[i]? = some old →
      configDefaults (l.set i u) + (if old.isDefault then 1 else 0)
        = configDefaults l + (if u.isDefault then 1 else 0) := by
  intro l
  induction l with
  | nil => intro i old h; simp at h
  | cons c rest ih =>
    intro i old h
    cases i with
    | zero =>
      simp only [List.getElem?_cons_zero, Option.some.injEq] at h
      subst h
      simp only [List.set_cons_zero]
      simp [configDefaults, List.countP_cons]
      omega
    | succ i =>
      simp only [List.getElem?_cons_succ] at h
      simp only [List.set_cons_succ]
      have := ih i old h
      simp only [configDefaults, List.countP_cons] at this ⊢
      omega

/-- Removing the entry at a valid index removes its flag from the count. -/
theorem configDefaults_eraseIdx :
    ∀ (l : List SmtpServerConfig) (i : Nat) (c : SmtpServerConfig), l[i]? = some c →
      configDefaults (l.eraseIdx i) + (if c.isDefault then 1 else 0) = configDefaults l := by
  intro l
  induction l with
  | nil => intro i c h; simp at h
  | cons c0 rest ih =>
    intro i c h
    cases i with
    | zero =>
      simp only [List.getElem?_cons_zero, Option.some.injEq] at h
      subst h
      simp only [List.eraseIdx_cons_zero]
      simp [configDefaults, List.countP_cons]
    | succ i =>
      simp only [List.getElem?_cons_succ] at h
      simp only [List.eraseIdx_cons_succ]
      have := ih i c h
      simp only [configDefaults, List.countP_cons] at this ⊢
      omega

/-- Cons step for the default count. -/
theorem configDefaults_cons (c : SmtpServerConfig) (l : List SmtpServerConfig) :
    configDefaults (c :: l) = configDefaults l + (if c.isDefault then 1 else 0) := by
  simp [configDefaults, List.countP_cons]

/-- Each config mutation keeps at most one entry flagged default. -/
theorem applyConfigOp_atMostOne (op : ConfigOp) (s : List SmtpServerConfig)
    (h : configDefaults s ≤ 1) : configDefaults (applyConfigOp op s) ≤ 1 := by
  cases op with
  | add newId p =>
    show configDefaults (handleAddSmtpConfig newId p s).2 ≤ 1
    by_cases hd : p.isDefault.getD false = true
    · simp only [handleAddSmtpConfig, hd, if_true]
      have h0 := configDefaults_demoteAll s
      simp only [configDefaults, List.countP_append] at h0 ⊢
      simp [List.countP_cons, h0, hd]
    · simp only [handleAddSmtpConfig, hd, if_false, Bool.false_eq_true, ite_false]
      simp only [configDefaults, List.countP_append] at h ⊢
      simp [List.countP_cons, hd]
      omega
  | update p =>
    show configDefaults (handleUpdateSmtpConfig p s).2 ≤ 1
    cases hidx : s.findIdx? (fun c => c.id == p.id) with
    | none => simpa [handleUpdateSmtpConfig, hidx] using h
    | some i =>
      cases hget : s[i]? with
      | none => simpa [handleUpdateSmtpConfig, hidx, hget] using h
      | some old =>
        by_cases hdef : p.isDefault = some true
        · have hget2 : (s.map (fun c => { c with isDefault := false }))[i]?
              = some { old with isDefault := false } := by
            simp [List.getElem?_map, hget]
          have hset := configDefaults_set (applyConfigUpdate p old) _ i _ hget2
          have h0 := configDefaults_demoteAll s
          have hgoal : (handleUpdateSmtpConfig p s).2
              = (s.map (fun c => { c with isDefault := false })).set i
                  (applyConfigUpdate p old) := by
            simp [handleUpdateSmtpConfig, hidx, hget, hdef]
          rw [hgoal]
          have hu : (applyConfigUpdate p old).isDefault = true := by
            simp [applyConfigUpdate, hdef]
          rw [hu] at hset
          simp at hset
          omega
        · have hset := configDefaults_set (applyConfigUpdate p old) s i old hget
          have hgoal : (handleUpdateSmtpConfig p s).2 = s.set i (applyConfigUpdate p old) := by
            simp [handleUpdateSmtpConfig, hidx, hget, hdef]
          rw [hgoal]
          have hle : (if (applyConfigUpdate p old).isDefault then 1 else 0)
              ≤ (if old.isDefault then 1 else 0) := by
            rcases hp : p.isDefault with - | b
            · simp [applyConfigUpdate, hp]
            · cases b with
              | true => exact absurd hp hdef
              | false => simp [applyConfigUpdate, hp]
          omega
  | del id =>
    show configDefaults (handleDeleteSmtpConfig id s).2 ≤ 1
    cases hidx : s.findIdx? (fun c => c.id == id) with
    | none => simpa [handleDeleteSmtpConfig, hidx] using h
    | some i =>
      cases hget : s[i]? with
      | none => simpa [handleDeleteSmtpConfig, hidx, hget] using h
      | some c =>
        by_cases hlen : s.length = 1
        · simpa [handleDeleteSmtpConfig, hidx, hget, hlen] using h
        · have herase := configDefaults_eraseIdx s i c hget
          by_cases hc : c.isDefault = true
          · have hz : configDefaults (s.eraseIdx i) = 0 := by
              rw [hc] at herase
              simp at herase
              omega
            cases he : s.eraseIdx i with
            | nil =>
              have hgoal : (handleDeleteSmtpConfig id s).2 = [] := by
                simp [handleDeleteSmtpConfig, hidx, hget, hlen, hc, he]
              rw [hgoal]
              simp [configDefaults]
            | cons c0 rest =>
              have hgoal : (handleDeleteSmtpConfig id s).2
                  = { c0 with isDefault := true } :: rest := by
                simp [handleDeleteSmtpConfig, hidx, hget, hlen, hc, he]
              rw [hgoal, configDefaults_cons]
              rw [he, configDefaults_cons] at hz
              have h1 : (if ({ c0 with isDefault := true } : SmtpServerConfig).isDefault
                  then (1 : Nat) else 0) = 1 := rfl
              omega
          · simp only [Bool.not_eq_true] at hc
            have hgoal : (handleDeleteSmtpConfig id s).2 = s.eraseIdx i := by
              simp [handleDeleteSmtpConfig, hidx, hget, hlen, hc]
            rw [hgoal]
            rw [hc] at herase
            simp only [Bool.false_eq_true, if_false] at herase
            omega

/-- Sequences of config mutations keep at most one default. -/
theorem applyConfigOps_atMostOne :
    ∀ (ops : List ConfigOp) (s : List SmtpServerConfig),
      configDefaults s ≤ 1 → configDefaults (applyConfigOps ops s) ≤ 1 := by
  intro ops
  induction ops with
  | nil => intro s h; exact h
  | cons op rest ih =>
    intro s h
    exact ih _ (applyConfigOp_atMostOne op s h)

/-- Cons step for the template default count. -/
theorem templateDefaults_cons (t : EmailTemplate) (l : List EmailTemplate) :
    templateDefaults (t :: l) = templateDefaults l + (if t.isDefault then 1 else 0) := by
  simp [templateDefaults, List.countP_cons]

/-- Demoting every currently-default template clears all default flags. -/
theorem templateDefaults_demoteAll (l : List EmailTemplate) :
    templateDefaults (l.map (fun t =>
      if t.isDefault then { t with isDefault := false } else t)) = 0 := by
  simp only [templateDefaults, List.countP_map]
  rw [List.countP_eq_zero]
  intro t _
  by_cases h : t.isDefault = true <;> simp [Function.comp, h]

/-- A fresh id makes the template store append. -/
theorem storeTemplate_fresh (t : EmailTemplate) (ts : List EmailTemplate)
    (h : ts.any (fun u => u.id == t.id) = false) :
    storeTemplate t ts = ts ++ [t] := by
  simp [storeTemplate, h]

/-- The found template carries the looked-up id. -/
theorem find?_id_eq {pid : String} {ts : List EmailTemplate} {t : EmailTemplate}
    (h : ts.find? (fun u => u.id == pid) = some t) : t.id = pid := by
  have := List.find?_some h
  simpa using this

/-- Under unique ids, an id determines the entry. -/
theorem unique_by_id :
    ∀ (ts : List EmailTemplate), (ts.map (fun u => u.id)).Nodup →
      ∀ t ∈ ts, ∀ u ∈ ts, u.id = t.id → u = t := by
  intro ts
  induction ts with
  | nil => intro _ t ht; simp at ht
  | cons w ts ih =>
    intro hnd t ht u hu heq
    simp only [List.map_cons, List.nodup_cons] at hnd
    obtain ⟨hw, hnd'⟩ := hnd
    simp only [List.mem_cons] at ht hu
    cases ht with
    | inl ht =>
      subst ht
      cases hu with
      | inl hu => exact hu
      | inr hu =>
        exfalso
        exact hw (heq ▸ List.mem_map_of_mem (fun u => u.id) hu)
    | inr ht =>
      cases hu with
      | inl hu =>
        exfalso
        subst hu
        exact hw (heq.symm ▸ List.mem_map_of_mem (fun u => u.id) ht)
      | inr hu => exact ih hnd' t ht u hu heq

/-- Under unique ids, exactly one entry bears a member's id. -/
theorem countP_id_one :
    ∀ (ts : List EmailTemplate), (ts.map (fun u => u.id)).Nodup →
      ∀ u ∈ ts, ts.countP (fun w => w.id == u.id) = 1 := by
  intro ts
  induction ts with
  | nil => intro _ u hu; simp at hu
  | cons w ts ih =>
    intro hnd u hu
    simp only [List.map_cons, List.nodup_cons] at hnd
    obtain ⟨hw, hnd'⟩ := hnd
    simp only [List.mem_cons] at hu
    cases hu with
    | inl hu =>
      subst hu
      rw [List.countP_cons]
      have hz : ts.countP (fun w => w.id == u.id) = 0 := by
        rw [List.countP_eq_zero]
        intro v hv hveq
        exact hw (by
          have : v.id = u.id := by simpa using hveq
          exact this ▸ List.mem_map_of_mem (fun x => x.id) hv)
      simp [hz]
    | inr hu =>
      rw [List.countP_cons]
      have hz : (w.id == u.id) = false := by
        by_contra hcon
        simp only [Bool.not_eq_false, beq_iff_eq] at hcon
        exact hw (hcon ▸ List.mem_map_of_mem (fun x => x.id) hu)
      rw [ih hnd' u hu]
      simp [hz]

/-- Two distinct members both satisfying a predicate force a count of two. -/
theorem two_le_countP_of_mem (p : EmailTemplate → Bool) :
    ∀ (l : List EmailTemplate) (a b : EmailTemplate), a ∈ l → b ∈ l → a ≠ b →
      p a = true → p b = true → 2 ≤ l.countP p := by
  intro l
  induction l with
  | nil => intro a b ha; simp at ha
  | cons c l ih =>
    intro a b ha hb hne hpa hpb
    simp only [List.mem_cons] at ha hb
    rw [List.countP_cons]
    cases ha with
    | inl ha =>
      subst ha
      cases hb with
      | inl hb => exact absurd hb.symm hne
      | inr hb =>
        have h1 : 1 ≤ l.countP p :=
          List.countP_pos_iff.mpr ⟨b, hb, hpb⟩
        have hone : (if p a = true then (1 : Nat) else 0) = 1 := by rw [hpa]; rfl
        omega
    | inr ha =>
      cases hb with
      | inl hb =>
        subst hb
        have h1 : 1 ≤ l.countP p :=
          List.countP_pos_iff.mpr ⟨a, ha, hpa⟩
        have hone : (if p b = true then (1 : Nat) else 0) = 1 := by rw [hpb]; rfl
        omega
      | inr hb =>
        have := ih a b ha hb hne hpa hpb
        omega

/-- Under at most one default, every default entry *is* the known default. -/
theorem default_unique {ts : List EmailTemplate} {t : EmailTemplate}
    (h : templateDefaults ts ≤ 1) (ht : t ∈ ts) (htd : t.isDefault = true) :
    ∀ w ∈ ts, w.isDefault = true → w = t := by
  intro w hw hwd
  by_contra hne
  have := two_le_countP_of_mem (fun t => t.isDefault) ts w t hw ht hne hwd htd
  simp only [templateDefaults] at h
  omega

/-- When no entry bears the id, the replace map is the identity. -/
theorem map_replace_id (pid : String) (newt : EmailTemplate) :
    ∀ ts : List EmailTemplate, (∀ u ∈ ts, (u.id == pid) = false) →
      ts.map (fun u => if u.id == pid then newt else u) = ts := by
  intro ts h
  have : ∀ u ∈ ts, (if u.id == pid then newt else u) = u := by
    intro u hu
    rw [h u hu]
    simp
  calc ts.map (fun u => if u.id == pid then newt else u)
      = ts.map (fun u => u) := List.map_congr_left this
    _ = ts := List.map_id' ts

/-- Persisting a template over the unique entry bearing its id trades that
entry's default flag for the new one. -/
theorem templateDefaults_replace (pid : String) (newt : EmailTemplate) :
    ∀ (ts : List EmailTemplate) (t : EmailTemplate),
      (ts.map (fun u => u.id)).Nodup →
      ts.find? (fun u => u.id == pid) = some t →
      templateDefaults (ts.map (fun u => if u.id == pid then newt else u))
          + (if t.isDefault then 1 else 0)
        = templateDefaults ts + (if newt.isDefault then 1 else 0) := by
  intro ts
  induction ts with
  | nil => intro t _ hfind; simp at hfind
  | cons w ts ih =>
    intro t hnd hfind
    simp only [List.map_cons, List.nodup_cons] at hnd
    obtain ⟨hw, hnd'⟩ := hnd
    by_cases hwp : (w.id == pid) = true
    · rw [@List.find?_cons_of_pos _ (fun u => u.id == pid) w ts hwp] at hfind
      simp only [Option.some.injEq] at hfind
      subst hfind
      have hrest : ∀ u ∈ ts, (u.id == pid) = false := by
        intro u hu
        by_contra hcon
        simp only [Bool.not_eq_false, beq_iff_eq] at hcon hwp
        exact hw (by
          rw [hwp, ← hcon]
          exact List.mem_map_of_mem (fun x => x.id) hu)
      simp only [List.map_cons, hwp, if_true]
      rw [map_replace_id pid newt ts hrest]
      rw [templateDefaults_cons, templateDefaults_cons]
      omega
    · rw [@List.find?_cons_of_neg _ (fun u => u.id == pid) w ts (by simpa using hwp)] at hfind
      have := ih t hnd' hfind
      simp only [List.map_cons, hwp, if_false, Bool.false_eq_true]
      rw [templateDefaults_cons, templateDefaults_cons]
      omega

/-- Demoting the defaults at other ids leaves only the defaults at the
given id. -/
theorem templateDefaults_demoteOthers (pid : String) (ts : List EmailTemplate) :
    templateDefaults (ts.map (fun u =>
        if u.id != pid && u.isDefault then { u with isDefault := false } else u))
      = ts.countP (fun u => u.isDefault && u.id == pid) := by
  simp only [templateDefaults, List.countP_map]
  apply List.countP_congr
  intro u _
  by_cases h1 : (u.id == pid) = true <;> by_cases h2 : u.isDefault = true <;>
    simp [Function.comp, h1, h2, bne]

/-- `find?` by id commutes with an id-preserving map. -/
theorem find?_map_id_preserving (pid : String) (f : EmailTemplate → EmailTemplate)
    (hf : ∀ u, (f u).id = u.id) :
    ∀ ts : List EmailTemplate,
      (ts.map f).find? (fun u => u.id == pid) = (ts.find? (fun u => u.id == pid)).map f := by
  intro ts
  induction ts with
  | nil => rfl
  | cons w ts ih =>
    by_cases hwp : (w.id == pid) = true
    · rw [List.map_cons,
        @List.find?_cons_of_pos _ (fun u => u.id == pid) (f w) (ts.map f) (by simp only [hf]; exact hwp),
        @List.find?_cons_of_pos _ (fun u => u.id == pid) w ts hwp]
      rfl
    · rw [List.map_cons,
        @List.find?_cons_of_neg _ (fun u => u.id == pid) (f w) (ts.map f) (by simp only [hf]; exact hwp),
        @List.find?_cons_of_neg _ (fun u => u.id == pid) w ts hwp]
      exact ih

/-- An id-preserving map keeps the id list (hence uniqueness). -/
theorem map_ids_preserved (f : EmailTemplate → EmailTemplate)
    (hf : ∀ u, (f u).id = u.id) (ts : List EmailTemplate) :
    (ts.map f).map (fun u => u.id) = ts.map (fun u => u.id) := by
  rw [List.map_map]
  exact List.map_congr_left (fun u _ => hf u)

/-- Persisting over the entry with the same id (found by `find?`). -/
theorem any_id_of_find? {pid : String} {ts : List EmailTemplate} {t : EmailTemplate}
    (hfind : ts.find? (fun u => u.id == pid) = some t) :
    ts.any (fun u => u.id == pid) = true :=
  List.any_eq_true.mpr ⟨t, List.mem_of_find?_eq_some hfind,
    @List.find?_some _ (fun u => u.id == pid) t ts hfind⟩

/-- The present-id case of the template store is a replace-by-id. -/
theorem storeTemplate_present (t' : EmailTemplate) (ts : List EmailTemplate)
    (h : ts.any (fun u => u.id == t'.id) = true) :
    storeTemplate t' ts = ts.map (fun u => if u.id == t'.id then t' else u) := by
  simp [storeTemplate, h]

/-- Replacing by id never changes the id list. -/
theorem storeTemplate_ids (t' : EmailTemplate) (ts : List EmailTemplate)
    (h : ts.any (fun u => u.id == t'.id) = true) :
    (storeTemplate t' ts).map (fun u => u.id) = ts.map (fun u => u.id) := by
  rw [storeTemplate_present t' ts h]
  apply map_ids_preserved
  intro u
  by_cases hc : (u.id == t'.id) = true
  · simp only [hc, if_true]
    exact (beq_iff_eq.mp hc).symm
  · simp [hc]

/-- Count change of a present-id store. -/
theorem templateDefaults_store (t' : EmailTemplate) (ts : List EmailTemplate)
    (told : EmailTemplate) (hnd : (ts.map (fun u => u.id)).Nodup)
    (hfind : ts.find? (fun u => u.id == t'.id) = some told) :
    templateDefaults (storeTemplate t' ts) + (if told.isDefault then 1 else 0)
      = templateDefaults ts + (if t'.isDefault then 1 else 0) := by
  rw [storeTemplate_present t' ts (any_id_of_find? hfind)]
  exact templateDefaults_replace t'.id t' ts told hnd hfind

/-- `add-email-template` with a fresh id keeps the invariant. -/
theorem templateAdd_inv (newId : String) (p : AddTemplateParams)
    (s : List EmailTemplate)
    (hfresh : s.any (fun t => t.id == newId) = false)
    (hnd : (s.map (fun u => u.id)).Nodup)
    (h : templateDefaults s ≤ 1) :
    templateDefaults (handleAddEmailTemplate newId p s).2 ≤ 1 ∧
      (((handleAddEmailTemplate newId p s).2).map (fun u => u.id)).Nodup := by
  have hdemid : ∀ u : EmailTemplate,
      ((if u.isDefault then { u with isDefault := false } else u) : EmailTemplate).id = u.id := by
    intro u
    by_cases hc : u.isDefault = true <;> simp [hc]
  by_cases hd : p.isDefault.getD false = true
  · have hgoal : (handleAddEmailTemplate newId p s).2
        = storeTemplate
            { id := newId, name := p.name, subject := p.subject, body := p.body
            , isDefault := p.isDefault.getD false }
            (s.map (fun t => if t.isDefault then { t with isDefault := false } else t)) := by
      simp [handleAddEmailTemplate, hd]
    have hids : (s.map (fun t => if t.isDefault then { t with isDefault := false } else t)).map
        (fun u => u.id) = s.map (fun u => u.id) := map_ids_preserved _ hdemid s
    have hany : (s.map (fun t => if t.isDefault then { t with isDefault := false } else t)).any
        (fun u => u.id == newId) = false := by
      rw [List.any_map]
      rw [show ((fun u : EmailTemplate => u.id == newId) ∘
          (fun t => if t.isDefault then { t with isDefault := false } else t))
        = (fun u : EmailTemplate => u.id == newId) from funext (fun u => by
          simp [Function.comp, hdemid u])]
      exact hfresh
    rw [hgoal, storeTemplate_fresh _ _ hany]
    constructor
    · have h0 := templateDefaults_demoteAll s
      simp only [templateDefaults, List.countP_append] at h0 ⊢
      simp [List.countP_cons, h0, hd]
    · rw [List.map_append, hids]
      have hnotin : newId ∉ s.map (fun u => u.id) := by
        intro hmem
        obtain ⟨t, ht, hteq⟩ := List.mem_map.mp hmem
        have : s.any (fun t => t.id == newId) = true :=
          List.any_eq_true.mpr ⟨t, ht, by simp [hteq]⟩
        rw [this] at hfresh
        exact absurd hfresh (by simp)
      have hperm : (newId :: s.map (fun u => u.id)).Perm
          (s.map (fun u => u.id) ++ [newId]) := (List.perm_append_singleton _ _).symm
      exact hperm.nodup (List.nodup_cons.mpr ⟨hnotin, hnd⟩)
  · have hgoal : (handleAddEmailTemplate newId p s).2
        = storeTemplate
            { id := newId, name := p.name, subject := p.subject, body := p.body
            , isDefault := p.isDefault.getD false } s := by
      simp [handleAddEmailTemplate, hd]
    rw [hgoal, storeTemplate_fresh _ _ (by simpa using hfresh)]
    constructor
    · simp only [templateDefaults, List.countP_append] at h ⊢
      simp [List.countP_cons, hd]
      omega
    · rw [List.map_append]
      have hnotin : newId ∉ s.map (fun u => u.id) := by
        intro hmem
        obtain ⟨t, ht, hteq⟩ := List.mem_map.mp hmem
        have : s.any (fun t => t.id == newId) = true :=
          List.any_eq_true.mpr ⟨t, ht, by simp [hteq]⟩
        rw [this] at hfresh
        exact absurd hfresh (by simp)
      have hperm : (newId :: s.map (fun u => u.id)).Perm
          (s.map (fun u => u.id) ++ [newId]) := (List.perm_append_singleton _ _).symm
      exact hperm.nodup (List.nodup_cons.mpr ⟨hnotin, hnd⟩)

/-- Persisting a template over the entry with its id keeps the invariant,
provided a newly-default template replaces the old default or lands in a
collection without defaults. -/
theorem templateStore_inv (t' told : EmailTemplate) (ts : List EmailTemplate)
    (hnd : (ts.map (fun u => u.id)).Nodup)
    (hfind : ts.find? (fun u => u.id == t'.id) = some told)
    (h : templateDefaults ts ≤ 1)
    (hc : t'.isDefault = true → told.isDefault = true ∨ templateDefaults ts = 0) :
    templateDefaults (storeTemplate t' ts) ≤ 1 ∧
      ((storeTemplate t' ts).map (fun u => u.id)).Nodup := by
  have hcount := templateDefaults_store t' ts told hnd hfind
  have hids := storeTemplate_ids t' ts (any_id_of_find? hfind)
  refine ⟨?_, by rw [hids]; exact hnd⟩
  by_cases ht' : t'.isDefault = true
  · have h2 : (if t'.isDefault then (1 : Nat) else 0) = 1 := by rw [ht']; rfl
    rcases hc ht' with htold | hzero
    · have h1 : (if told.isDefault then (1 : Nat) else 0) = 1 := by rw [htold]; rfl
      omega
    · omega
  · have h2 : (if t'.isDefault then (1 : Nat) else 0) = 0 := by simp [ht']
    omega

/-- `update-email-template` keeps the invariant. -/
theorem templateUpdate_inv (p : UpdateTemplateParams) (s : List EmailTemplate)
    (hnd : (s.map (fun u => u.id)).Nodup)
    (h : templateDefaults s ≤ 1) :
    templateDefaults (handleUpdateEmailTemplate p s).2 ≤ 1 ∧
      (((handleUpdateEmailTemplate p s).2).map (fun u => u.id)).Nodup := by
  cases hfind : s.find? (fun t => t.id == p.id) with
  | none =>
    have hgoal : (handleUpdateEmailTemplate p s).2 = s := by
      simp [handleUpdateEmailTemplate, hfind]
    rw [hgoal]
    exact ⟨h, hnd⟩
  | some t =>
    have hteq : t.id = p.id := find?_id_eq hfind
    have hfindt : s.find? (fun u => u.id == t.id) = some t := by
      simp only [hteq]
      exact hfind
    by_cases hchg : (match p.isDefault with
        | some b => decide (b ≠ t.isDefault)
        | none => false) = true
    · -- the isDefault parameter is given and differs from the current flag
      cases hp : p.isDefault with
      | none => rw [hp] at hchg; simp at hchg
      | some b =>
        rw [hp] at hchg
        simp only [decide_eq_true_eq] at hchg
        cases hb : b with
        | false =>
          -- explicit demotion of the current default; no clearing
          subst hb
          have htd : t.isDefault = true := by
            cases hft : t.isDefault with
            | false => rw [hft] at hchg; exact absurd rfl hchg
            | true => rfl
          have hgoal : (handleUpdateEmailTemplate p s).2
              = storeTemplate
                  { t with
                    name := p.name.getD t.name,
                    subject := p.subject.getD t.subject,
                    body := p.body.getD t.body,
                    isDefault := false } s := by
            simp [handleUpdateEmailTemplate, hfind, hp, htd]
          rw [hgoal]
          exact templateStore_inv _ t s hnd hfindt h (by intro hcon; simp at hcon)
        | true =>
          -- promotion: every other default is demoted first
          subst hb
          have htd : t.isDefault = false := by
            cases hft : t.isDefault with
            | true => rw [hft] at hchg; exact absurd rfl hchg
            | false => rfl
          have hdemid : ∀ u : EmailTemplate,
              ((if u.id != p.id && u.isDefault then { u with isDefault := false } else u)
                : EmailTemplate).id = u.id := by
            intro u
            by_cases hc : (u.id != p.id && u.isDefault) = true <;> simp [hc]
          have hgoal : (handleUpdateEmailTemplate p s).2
              = storeTemplate
                  { t with
                    name := p.name.getD t.name,
                    subject := p.subject.getD t.subject,
                    body := p.body.getD t.body,
                    isDefault := true }
                  (s.map (fun u =>
                    if u.id != p.id && u.isDefault then { u with isDefault := false } else u)) := by
            simp [handleUpdateEmailTemplate, hfind, hp, htd]
          rw [hgoal]
          have hz : templateDefaults (s.map (fun u =>
              if u.id != p.id && u.isDefault then { u with isDefault := false } else u)) = 0 := by
            rw [templateDefaults_demoteOthers]
            rw [List.countP_eq_zero]
            intro u hu hcon
            simp only [Bool.and_eq_true, beq_iff_eq] at hcon
            have := unique_by_id s hnd t (List.mem_of_find?_eq_some hfind) u hu
              (by rw [hcon.2, hteq])
            rw [this] at hcon
            rw [htd] at hcon
            exact absurd hcon.1 (by simp)
          have hids2 : (s.map (fun u =>
              if u.id != p.id && u.isDefault then { u with isDefault := false } else u)).map
              (fun u => u.id) = s.map (fun u => u.id) := map_ids_preserved _ hdemid s
          have hnd2 : ((s.map (fun u =>
              if u.id != p.id && u.isDefault then { u with isDefault := false } else u)).map
              (fun u => u.id)).Nodup := by rw [hids2]; exact hnd
          have hfind2 : (s.map (fun u =>
              if u.id != p.id && u.isDefault then { u with isDefault := false } else u)).find?
              (fun u => u.id == t.id) = some t := by
            rw [find?_map_id_preserving t.id _ hdemid s, hfindt]
            have : (if t.id != p.id && t.isDefault then
                ({ t with isDefault := false } : EmailTemplate) else t) = t := by
              simp [htd]
            simp [this, htd]
          exact templateStore_inv _ t _ hnd2 hfind2 (by omega) (fun _ => Or.inr hz)
    · -- the isDefault parameter is absent or unchanged: flags untouched
      have hgoal : (handleUpdateEmailTemplate p s).2
          = storeTemplate
              { t with
                name := p.name.getD t.name,
                subject := p.subject.getD t.subject,
                body := p.body.getD t.body,
                isDefault := t.isDefault } s := by
        simp only [handleUpdateEmailTemplate, hfind]
        rw [if_neg (by simpa using hchg), if_neg (by
          simp only [Bool.and_eq_true]
          intro hcon
          exact (by simpa using hchg : ¬ _) hcon.1)]
      rw [hgoal]
      exact templateStore_inv _ t s hnd hfindt h (fun hd => Or.inl hd)

/-- Filtering out a template never raises the default count. -/
theorem templateDefaults_filter_le (id : String) (l : List EmailTemplate) :
    templateDefaults (l.filter (fun u => u.id != id)) ≤ templateDefaults l := by
  simp only [templateDefaults, List.countP_filter]
  exact List.countP_mono_left (fun a _ hb => by
    simp only [Bool.and_eq_true] at hb
    exact hb.1)

/-- Filtering keeps the id list unique. -/
theorem nodup_filter_ids (id : String) (l : List EmailTemplate)
    (hnd : (l.map (fun u => u.id)).Nodup) :
    ((l.filter (fun u => u.id != id)).map (fun u => u.id)).Nodup :=
  ((l.filter_sublist (p := fun u => u.id != id)).map (fun u => u.id)).nodup hnd

/-- `delete-email-template` keeps the invariant. -/
theorem templateDel_inv (id : String) (s : List EmailTemplate)
    (hnd : (s.map (fun u => u.id)).Nodup)
    (h : templateDefaults s ≤ 1) :
    templateDefaults (handleDeleteEmailTemplate id s).2 ≤ 1 ∧
      (((handleDeleteEmailTemplate id s).2).map (fun u => u.id)).Nodup := by
  cases hfind : s.find? (fun t => t.id == id) with
  | none =>
    have hgoal : (handleDeleteEmailTemplate id s).2 = s := by
      simp [handleDeleteEmailTemplate, hfind]
    rw [hgoal]
    exact ⟨h, hnd⟩
  | some t =>
    have hmem := List.mem_of_find?_eq_some hfind
    have hteq : t.id = id := find?_id_eq hfind
    by_cases hcond : (t.isDefault && decide (s.length > 1)) = true
    · cases hfu : s.find? (fun u => u.id != id) with
      | none =>
        have hgoal : (handleDeleteEmailTemplate id s).2
            = s.filter (fun u => u.id != id) := by
          simp [handleDeleteEmailTemplate, hfind, hcond, hfu]
        rw [hgoal]
        exact ⟨le_trans (templateDefaults_filter_le id s) h, nodup_filter_ids id s hnd⟩
      | some u =>
        have huid : (u.id != id) = true := @List.find?_some _ (fun u => u.id != id) u s hfu
        have humem := List.mem_of_find?_eq_some hfu
        have htd : t.isDefault = true := by
          simp only [Bool.and_eq_true] at hcond
          exact hcond.1
        have hgoal : (handleDeleteEmailTemplate id s).2
            = (storeTemplate { u with isDefault := true } s).filter
                (fun w => w.id != id) := by
          simp [handleDeleteEmailTemplate, hfind, hcond, hfu]
        have hany : s.any
            (fun w => w.id == ({ u with isDefault := true } : EmailTemplate).id) = true :=
          List.any_eq_true.mpr ⟨u, humem, by simp⟩
        have hrepid : ∀ w : EmailTemplate,
            ((if w.id == ({ u with isDefault := true } : EmailTemplate).id
              then ({ u with isDefault := true } : EmailTemplate) else w) : EmailTemplate).id
              = w.id := by
          intro w
          by_cases hw : (w.id == u.id) = true
          · simp only [hw]
            simp only [if_true]
            exact (beq_iff_eq.mp hw).symm
          · simp [hw]
        rw [hgoal, storeTemplate_present _ _ hany]
        constructor
        · have hcnt : templateDefaults
              (((s.map (fun w => if w.id == ({ u with isDefault := true } : EmailTemplate).id
                then ({ u with isDefault := true } : EmailTemplate) else w))).filter
                (fun w => w.id != id))
              = s.countP (fun w => w.id == u.id) := by
            simp only [templateDefaults, List.countP_filter, List.countP_map]
            apply List.countP_congr
            intro w hw
            by_cases hww : (w.id == u.id) = true
            · simp [Function.comp, hww, huid]
            · have hwod : (w.isDefault && w.id != id) = (false : Bool) := by
                cases hwd : w.isDefault with
                | false => simp
                | true =>
                  have := default_unique h hmem htd w hw hwd
                  subst this
                  simp [hteq]
              simp only [Function.comp, hww, if_false, Bool.false_eq_true]
              constructor
              · intro hx
                simp only [Bool.and_eq_true] at hx
                simp [hx.1, hx.2] at hwod
              · intro hx
                exact absurd hx (by simp [hww])
          rw [hcnt, countP_id_one s hnd u humem]
        · have hids : ((s.map (fun w => if w.id == ({ u with isDefault := true } : EmailTemplate).id
              then ({ u with isDefault := true } : EmailTemplate) else w))).map (fun w => w.id)
              = s.map (fun w => w.id) := map_ids_preserved _ hrepid s
          have hnd2 := hnd
          rw [← hids] at hnd2
          exact nodup_filter_ids id _ hnd2
    · have hgoal : (handleDeleteEmailTemplate id s).2
          = s.filter (fun u => u.id != id) := by
        have hcond2 : ¬(t.isDefault = true ∧ 1 < s.length) := by
          intro hcon
          exact hcond (by simp [hcon.1, hcon.2])
        simp [handleDeleteEmailTemplate, hfind, hcond2]
      rw [hgoal]
      exact ⟨le_trans (templateDefaults_filter_le id s) h, nodup_filter_ids id s hnd⟩

/-- Any single template mutation (with a fresh id on add) keeps the
invariant and the unique ids. -/
theorem applyTemplateOp_inv (op : TemplateOp) (s : List EmailTemplate)
    (hfresh : freshTemplateOpOk op s = true)
    (hnd : (s.map (fun u => u.id)).Nodup)
    (h : templateDefaults s ≤ 1) :
    templateDefaults (applyTemplateOp op s) ≤ 1 ∧
      ((applyTemplateOp op s).map (fun u => u.id)).Nodup := by
  cases op with
  | add newId p =>
    have hfresh2 : s.any (fun t => t.id == newId) = false := by
      simpa [freshTemplateOpOk] using hfresh
    exact templateAdd_inv newId p s hfresh2 hnd h
  | update p => exact templateUpdate_inv p s hnd h
  | del id => exact templateDel_inv id s hnd h

/-- Sequences of template mutations keep at most one default. -/
theorem applyTemplateOps_atMostOne :
    ∀ (ops : List TemplateOp) (s : List EmailTemplate),
      wfTemplateOps ops s = true → (s.map (fun u => u.id)).Nodup →
      templateDefaults s ≤ 1 → templateDefaults (applyTemplateOps ops s) ≤ 1 := by
  intro ops
  induction ops with
  | nil => intro s _ _ h; exact h
  | cons op rest ih =>
    intro s hwf hnd h
    simp only [wfTemplateOps, Bool.and_eq_true] at hwf
    obtain ⟨hop, hrest⟩ := hwf
    obtain ⟨h1, h2⟩ := applyTemplateOp_inv op s hop hnd h
    exact ih _ hrest h2 h1

/-- C1 (amended): across any sequence of add/update/delete calls, at most
one entry of each collection carries `isDefault=true` (templates under
unique ids with fresh add ids, matching the one-file-per-id store).
"Exactly one" fails: an update that sets `isDefault:false` on the current
default leaves zero defaults — see the counterexample. -/
theorem default_flag_at_most_one :
    (∀ (ops : List ConfigOp) (s : List SmtpServerConfig),
        configDefaults s ≤ 1 → configDefaults (applyConfigOps ops s) ≤ 1) ∧
    (∀ (ops : List TemplateOp) (s : List EmailTemplate),
        wfTemplateOps ops s = true → (s.map (fun u => u.id)).Nodup →
        templateDefaults s ≤ 1 → templateDefaults (applyTemplateOps ops s) ≤ 1) :=
  ⟨applyConfigOps_atMostOne, applyTemplateOps_atMostOne⟩

/-- A sole default SMTP configuration. -/
def cxConfigA : SmtpServerConfig :=
  { id := ("a" : String), name := ("A" : String), host := ("h" : String), port := 1
  , secure := false, auth := { user := ("u" : String), pass := ("p" : String) }
  , isDefault := true }

/-- The `update-smtp-config` parameters that only clear the default flag. -/
def cxUpdateFalse : UpdateConfigParams :=
  { id := ("a" : String), name := none, host := none, port := none
  , secure := none, user := none, pass := none, isDefault := some false }

/-- C1 counterexample: updating the sole (default) config with
`isDefault:false` leaves a non-empty collection with zero defaults, so
"exactly one default" does not hold after every mutation sequence. -/
theorem default_flag_exactly_one_counterexample :
    applyConfigOps [ConfigOp.update cxUpdateFalse] [cxConfigA] ≠ [] ∧
    configDefaults (applyConfigOps [ConfigOp.update cxUpdateFalse] [cxConfigA]) = 0 := by
  decide

/-- A second SMTP configuration for witnesses. -/
def cxConfigB : SmtpServerConfig :=
  { id := ("b" : String), name := ("B" : String), host := ("h2" : String), port := 2
  , secure := false, auth := { user := ("u2" : String), pass := ("p2" : String) }
  , isDefault := false }

/-- `add-email-template` parameters flagged default, for witnesses. -/
def cxAddTemplateParams : AddTemplateParams :=
  { name := ("N" : String), subject := ("S2" : String), body := ("B2" : String)
  , isDefault := some true }

/-- Witness for C1 at a concrete config sequence and template sequence. -/
theorem default_flag_at_most_one_witness :
    configDefaults [cxConfigA, cxConfigB] ≤ 1 ∧
    configDefaults (applyConfigOps [ConfigOp.del ("a" : String)] [cxConfigA, cxConfigB]) ≤ 1 ∧
    wfTemplateOps [TemplateOp.add ("t9" : String) cxAddTemplateParams] [cxTemplate] = true ∧
    (([cxTemplate] : List EmailTemplate).map (fun u => u.id)).Nodup ∧
    templateDefaults [cxTemplate] ≤ 1 ∧
    templateDefaults (applyTemplateOps [TemplateOp.add ("t9" : String) cxAddTemplateParams]
      [cxTemplate]) ≤ 1 := by
  refine ⟨by decide, ?_, by decide, by decide, by decide, ?_⟩
  · exact default_flag_at_most_one.1 [ConfigOp.del ("a" : String)] [cxConfigA, cxConfigB]
      (by decide)
  · exact default_flag_at_most_one.2 [TemplateOp.add ("t9" : String) cxAddTemplateParams]
      [cxTemplate] (by decide) (by decide) (by decide)

/-! ## Claim C7: deleting the last entry -/

/-- C7: `delete-smtp-config` on the sole remaining configuration returns a
failure and removes nothing; `delete-email-template` on the sole remaining
template succeeds and leaves zero templates. -/
theorem delete_last_entry_asymmetry (c : SmtpServerConfig) (t : EmailTemplate) :
    handleDeleteSmtpConfig c.id [c] = (false, [c]) ∧
    handleDeleteEmailTemplate t.id [t] = (true, []) := by
  constructor
  · simp [handleDeleteSmtpConfig, List.findIdx?_cons]
  · simp [handleDeleteEmailTemplate, List.find?]

/-! ## Claim C9: the config write path -/

/-- C9: `saveSmtpConfigs` overwrites only the `smtpServers` field, keeping
every other top-level field of the document (in particular `rateLimit`),
and returns `false` instead of throwing when the read or the write fails. -/
theorem saveSmtpConfigs_frame (doc : SmtpConfig) (configs : List SmtpServerConfig)
    (writeOk : Bool) :
    saveSmtpConfigs (some doc) true configs
      = (true, some { smtpServers := configs, rateLimit := doc.rateLimit }) ∧
    saveSmtpConfigs none writeOk configs = (false, none) ∧
    saveSmtpConfigs (some doc) false configs = (false, some doc) := by
  exact ⟨rfl, rfl, rfl⟩

/-! ## Claim C8: deleting the default promotes the first remaining entry -/

/-- Modelled from the SPEC's words, for comparison with the code: "promote
the first remaining entry (stable original order) to default". -/
def promoteFirstConfigSpec : List SmtpServerConfig → List SmtpServerConfig
  | [] => []
  | c :: rest => { c with isDefault := true } :: rest

/-- Modelled from the SPEC's words, for comparison with the code: the
template-collection version of the first-remaining-entry promotion. -/
def promoteFirstTemplateSpec : List EmailTemplate → List EmailTemplate
  | [] => []
  | t :: rest => { t with isDefault := true } :: rest

/-- Under unique ids, replacing the first survivor by its promoted copy and
then dropping the deleted id is exactly the promotion of the first survivor
of the filtered list. -/
theorem filter_map_promote (id : String) (u : EmailTemplate) :
    ∀ ts : List EmailTemplate,
      (ts.map (fun w => w.id)).Nodup →
      ts.find? (fun w => w.id != id) = some u →
      (ts.map (fun w => if w.id == u.id then { u with isDefault := true } else w)).filter
          (fun w => w.id != id)
        = promoteFirstTemplateSpec (ts.filter (fun w => w.id != id)) := by
  intro ts
  induction ts with
  | nil => intro _ hf; simp [List.find?] at hf
  | cons w ts ih =>
    intro hnd hf
    rw [List.map_cons, List.nodup_cons] at hnd
    obtain ⟨hwnotin, hndt⟩ := hnd
    by_cases hq : (w.id != id) = true
    · have hfw : (w :: ts).find? (fun v => v.id != id) = some w :=
        @List.find?_cons_of_pos _ (fun v => v.id != id) w ts hq
      rw [hf] at hfw
      injection hfw with hfw
      subst hfw
      have hmap : ts.map (fun v => if v.id == u.id then { u with isDefault := true } else v)
          = ts := by
        apply map_replace_id u.id _ ts
        intro v hv
        have hvmem : v.id ∈ ts.map (fun x => x.id) := List.mem_map_of_mem _ hv
        rw [beq_eq_false_iff_ne]
        intro hcontra
        exact hwnotin (hcontra ▸ hvmem)
      rw [List.map_cons, hmap]
      have hhead : (if u.id == u.id then ({ u with isDefault := true } : EmailTemplate) else u)
          = { u with isDefault := true } := by simp
      rw [hhead]
      have hq' : (({ u with isDefault := true } : EmailTemplate).id != id) = true := hq
      rw [@List.filter_cons_of_pos _ (fun w => w.id != id)
            ({ u with isDefault := true } : EmailTemplate) ts hq',
          @List.filter_cons_of_pos _ (fun w => w.id != id) u ts hq]
      rfl
    · have hqf : ¬((fun v => v.id != id) w = true) := hq
      have hfw : (w :: ts).find? (fun v => v.id != id) = ts.find? (fun v => v.id != id) :=
        List.find?_cons_of_neg _ hqf
      rw [hfw] at hf
      have hu_pred : (u.id != id) = true :=
        @List.find?_some _ (fun v => v.id != id) u ts hf
      have hw_eq : w.id = id := by
        have : (w.id != id) = false := by
          cases hb : (w.id != id) with
          | true => exact absurd hb hq
          | false => rfl
        simpa [bne_eq_false_iff_eq] using this
      have hw_head : (w.id == u.id) = false := by
        rw [beq_eq_false_iff_ne]
        intro hcontra
        have : (u.id != id) = false := by
          have : u.id = id := by rw [← hcontra, hw_eq]
          simp [this]
        rw [this] at hu_pred
        exact Bool.false_ne_true hu_pred
      rw [List.map_cons, hw_head]
      have hwq : ((fun v => v.id != id) w) = false := by
        simpa using hqf
      rw [if_neg (by simp), @List.filter_cons_of_neg _ (fun v => v.id != id) w _ hqf,
          @List.filter_cons_of_neg _ (fun v => v.id != id) w ts hqf]
      exact ih hndt hf

/-- C8: when the deleted entry is the default and at least one other entry
remains, both delete handlers return success with the first remaining entry
(stable original storage order) promoted to default — the code refines the
spec's promotion rule (templates under the store's unique ids). -/
theorem delete_default_promotes_first :
    (∀ (id : String) (configs : List SmtpServerConfig) (i : Nat) (c : SmtpServerConfig),
        configs.findIdx? (fun x => x.id == id) = some i →
        configs[i]? = some c → c.isDefault = true → 1 < configs.length →
        handleDeleteSmtpConfig id configs
          = (true, promoteFirstConfigSpec (configs.eraseIdx i))) ∧
    (∀ (id : String) (ts : List EmailTemplate) (t : EmailTemplate),
        (ts.map (fun w => w.id)).Nodup →
        ts.find? (fun w => w.id == id) = some t → t.isDefault = true →
        1 < ts.length →
        handleDeleteEmailTemplate id ts
          = (true, promoteFirstTemplateSpec (ts.filter (fun w => w.id != id)))) := by
  constructor
  · intro id configs i c hidx hget hdef hlen
    have hilt : i < configs.length := (List.getElem?_eq_some.mp hget).1
    have hlen1 : ¬(configs.length = 1) := by omega
    have herlen : (configs.eraseIdx i).length = configs.length - 1 := by
      simp [List.length_eraseIdx, hilt]
    simp only [handleDeleteSmtpConfig, hidx, hget]
    rw [if_neg hlen1]
    cases he : configs.eraseIdx i with
    | nil =>
      exfalso
      rw [he] at herlen
      simp at herlen
      omega
    | cons c0 rest =>
      simp [hdef, promoteFirstConfigSpec]
  · intro id ts t hnd hfind hdef hlen
    have hcond : (t.isDefault && decide (ts.length > 1)) = true := by
      simp [hdef, hlen]
    cases hfu : ts.find? (fun u => u.id != id) with
    | none =>
      have hfil : ts.filter (fun u => u.id != id) = [] := by
        rw [List.filter_eq_nil_iff]
        exact fun u hu => List.find?_eq_none.mp hfu u hu
      simp [handleDeleteEmailTemplate, hfind, hcond, hfu, hfil, promoteFirstTemplateSpec]
    | some u =>
      have hmem : u ∈ ts := List.mem_of_find?_eq_some hfu
      have hany :
          ts.any (fun w => w.id == ({ u with isDefault := true } : EmailTemplate).id) = true :=
        List.any_eq_true.mpr ⟨u, hmem, by simp⟩
      have hstore := storeTemplate_present ({ u with isDefault := true }) ts hany
      have hpromote := filter_map_promote id u ts hnd hfu
      simp only [handleDeleteEmailTemplate, hfind, hcond, hfu, if_true, hstore]
      rw [Prod.mk.injEq]
      exact ⟨rfl, hpromote⟩

/-- A default template alongside `cxTemplate`, for the C8 witness. -/
def cxTemplateD : EmailTemplate :=
  { id := ("d1" : String), name := ("D" : String), subject := ("SD" : String)
  , body := ("BD" : String), isDefault := true }

/-- Witness for C8: deleting the default among two configs promotes the
survivor, and likewise for templates. -/
theorem delete_default_promotes_first_witness :
    ([cxConfigA, cxConfigB].findIdx? (fun x => x.id == ("a" : String)) = some 0 ∧
     [cxConfigA, cxConfigB][0]? = some cxConfigA ∧
     cxConfigA.isDefault = true ∧ 1 < ([cxConfigA, cxConfigB] : List SmtpServerConfig).length ∧
     handleDeleteSmtpConfig ("a" : String) [cxConfigA, cxConfigB]
       = (true, promoteFirstConfigSpec ([cxConfigA, cxConfigB].eraseIdx 0))) ∧
    ((([cxTemplateD, cxTemplate] : List EmailTemplate).map (fun w => w.id)).Nodup ∧
     [cxTemplateD, cxTemplate].find? (fun w => w.id == ("d1" : String)) = some cxTemplateD ∧
     cxTemplateD.isDefault = true ∧ 1 < ([cxTemplateD, cxTemplate] : List EmailTemplate).length ∧
     handleDeleteEmailTemplate ("d1" : String) [cxTemplateD, cxTemplate]
       = (true, promoteFirstTemplateSpec
           ([cxTemplateD, cxTemplate].filter (fun w => w.id != ("d1" : String))))) := by
  refine ⟨⟨by decide, by decide, by decide, by decide, ?_⟩,
          ⟨by decide, by decide, by decide, by decide, ?_⟩⟩
  · exact delete_default_promotes_first.1 ("a" : String) [cxConfigA, cxConfigB] 0 cxConfigA
      (by decide) (by decide) (by decide) (by decide)
  · exact delete_default_promotes_first.2 ("d1" : String) [cxTemplateD, cxTemplate] cxTemplateD
      (by decide) (by decide) (by decide) (by decide)

/-- Witness for C10 at a concrete bulk request and a nameless recipient. -/
theorem bulk_name_injection_witness :
    cxRecipient.name = none ∧
    processTemplate ("Hello \x7b\x7bname\x7d\x7d" : String)
        (mkRecipientEmailData cxBulk2 cxRecipient).templateData
      = ("Hello " : String) :=
  ⟨rfl, (bulk_name_injection cxBulk2 cxRecipient).2.2 rfl⟩
